import Mathlib

/-!
# Red-Man maze chase: a verification development of `game.js`

Shallow embedding of the simulation engine of `src/game.js` (grid map, motion
primitives, hero and ghost updates, mode scheduler, release controller,
collision and scoring, level and life cycle) together with theorems about it.

Conventions of the embedding.
* JavaScript numbers that hold positions, speeds and times are modelled by exact
  rationals (`ℚ`); integer counters (score, lives, level, pellet counters) by
  `Int` or `Nat`. `Infinity` in the schedule table is `none`.
* `Math.floor` is `Rat.floor`; `Math.round x` is `Rat.floor (x + 1/2)`;
  `Math.hypot a b < k` is `a * a + b * b < k * k` for `0 ≤ k`.
* The global mutable variables of the script are the fields of `Game`; every
  function of the script is a function `Game → Game` (or returns `Option Game`
  where the script can throw on `schedule[schedIndex]`).
* `setTimeout(cb, ms)` appends a `Timer` to `Game.timers`, due at
  `Game.clock + ms`; `advance` moves the wall clock and runs the callbacks that
  became due, earliest first.
* Rendering, audio and HUD calls have no effect on the simulation state and are
  left out.
-/

namespace RedMan

/-! ## Config -/

def COLS : Nat := 28
def ROWS : Nat := 31
def TILE : Nat := 8
def FPS : Nat := 60
def STEP : ℚ := 1 / 60

/-! ## Directions and vectors -/

inductive Dir where
  | up | down | left | right | none
  deriving DecidableEq, Repr

structure Vec where
  x : ℚ
  y : ℚ
  deriving DecidableEq, Repr

/-- Function `dirVec(d)`: unit grid vector of a direction. -/
def dirVec : Dir → Vec
  | .up => ⟨0, -1⟩
  | .down => ⟨0, 1⟩
  | .left => ⟨-1, 0⟩
  | .right => ⟨1, 0⟩
  | .none => ⟨0, 0⟩

/-- Function `opposite(d)`. -/
def opposite : Dir → Dir
  | .up => .down
  | .down => .up
  | .left => .right
  | .right => .left
  | .none => .none

/-! ## Grid map

Cell kinds: 0 empty, 1 wall, 2 dot, 3 energizer, 4 tunnel. -/

abbrev Grid := List (List Nat)

/-- Lookup `map[r]?.[c]` for numeric indices: `none` is `undefined`. -/
def cellAt (m : Grid) (r c : Int) : Option Nat :=
  if r < 0 ∨ c < 0 then Option.none
  else m[r.toNat]?.bind (fun row => row[c.toNat]?)

/-- Assignment `map[r][c] = v` on an existing cell. -/
def setCell (m : Grid) (r c : Int) (v : Nat) : Grid :=
  if r < 0 ∨ c < 0 then m
  else m.modify (fun row => row.set c.toNat v) r.toNat

/-- Function `hitsWall(nx, ny)`: the cell under a continuous coordinate is a wall;
out-of-range rows and columns are not walls. -/
def hitsWall (m : Grid) (nx ny : ℚ) : Bool :=
  cellAt m (Rat.floor (ny / TILE)) (Rat.floor (nx / TILE)) == some 1

/-- Value of cell `(r, c)` at the end of `loadBaseMaze`: the assignments of the
function in program order, later ones overriding earlier ones. -/
def baseCell (r c : Nat) : Nat :=
  -- border
  let v0 := if r = 0 ∨ r = ROWS - 1 ∨ c = 0 ∨ c = COLS - 1 then 1 else 0
  -- horizontal corridors
  let v1 := if r ∈ [3, 6, 9, 12, 19, 22, 25, 28] ∧ 1 ≤ c ∧ c < COLS - 1 then 0 else v0
  -- vertical pillars
  let v2 := if c ∈ [4, 7, 10, 13, 16, 19, 22, 25] ∧ 1 ≤ r ∧ r < ROWS - 1 then 1 else v1
  -- gates
  let v3 := if r ∈ [5, 8, 21, 24, 27] ∧ c ∈ [2, 12, 15, COLS - 3] then 0 else v2
  -- house bounds
  let v4 := if 13 ≤ r ∧ r ≤ 17 ∧ 10 ≤ c ∧ c ≤ 17 then 1 else v3
  let v5 := if 14 ≤ r ∧ r ≤ 16 ∧ 12 ≤ c ∧ c ≤ 15 then 0 else v4
  -- gate tile (center)
  let v6 := if r = 15 ∧ c = 13 then 0 else v5
  -- tunnels
  let v7 := if r ∈ [15, 16] ∧ (c = 0 ∨ c = COLS - 1) then 4 else v6
  v7

/-- Function `loadBaseMaze()`. -/
def loadBaseMaze : Grid :=
  (List.range ROWS).map fun r => (List.range COLS).map fun c => baseCell r c

/-- Map with the position of every element. -/
def imap {α β : Type} (f : Nat → α → β) : Nat → List α → List β
  | _, [] => []
  | i, a :: l => f i a :: imap f (i + 1) l

/-- Number of cells of a grid that satisfy `p`. -/
def countCells (p : Nat → Bool) (m : Grid) : Nat :=
  (m.map fun row => row.countP p).sum

/-- Energizer positions `ener` of `placeDotsAndEnergizers`. -/
def ener : List (Nat × Nat) := [(3, 2), (3, COLS - 3), (ROWS - 4, 2), (ROWS - 4, COLS - 3)]

/-- Function `placeDotsAndEnergizers()` on the grid held by `map`: returns the new grid
and the value left in `pelletsRemaining`. The grid is always `ROWS × COLS`, so
the sweep over `r < ROWS`, `c < COLS` visits every cell. -/
def placeDotsAndEnergizers (m : Grid) : Grid × Int :=
  let dotted : Grid := m.map fun row => row.map fun v => if v = 0 then 2 else v
  let n : Int := countCells (fun v => v == 0) m
  let withEner := ener.foldl
    (fun g rc => if cellAt g rc.1 rc.2 ≠ some 1 then setCell g rc.1 rc.2 3 else g) dotted
  (withEner, n)

/-- Function `applyKillScreenSplit()`: the right half of the grid is overwritten. -/
def applyKillScreenSplit (m : Grid) : Grid :=
  imap (fun r row => imap (fun c v =>
    if COLS / 2 ≤ c then
      let chaos := (r * 131 + c * 197 + 256) % 8
      if chaos < 2 then 1 else if chaos < 5 then 2 else 0
    else v) 0 row) 0 m

/-- Function `generateMap(lvl)`: the new `map` and the new `pelletsRemaining`. -/
def generateMap (lvl : Int) : Grid × Int :=
  let p := placeDotsAndEnergizers loadBaseMaze
  if lvl = 256 then (applyKillScreenSplit p.1, p.2) else p


/-! ## State -/

inductive Mode where
  | scatter | chase | frightened
  deriving DecidableEq, Repr

inductive GhostType where
  | red | pink | cyan | orange
  deriving DecidableEq, Repr

/-- Class `Hero` (an `Entity` with the `invincible` flag). -/
structure Hero where
  pos : Vec
  dir : Dir
  nextDir : Dir
  speedTiles : ℚ
  invincible : Bool
  deriving DecidableEq, Repr

/-- Class `Ghost` (an `Entity` with the adversary flags); `target` is `none`
until `chooseTarget` or a capture assigns it. -/
structure Ghost where
  pos : Vec
  dir : Dir
  nextDir : Dir
  speedTiles : ℚ
  type : GhostType
  frightened : Bool
  eyesOnly : Bool
  baseSpeed : ℚ
  inHouse : Bool
  dotCounter : Nat
  target : Option Vec
  deriving DecidableEq, Repr

/-- The three deferred callbacks the script passes to `setTimeout`: the
frightened expiry of `energize`, the cinematic pause of `loseLife`, and the
restart of `gameOver`. -/
inductive Callback where
  | frightenedExpiry | lifeLostReset | gameOverRestart
  deriving DecidableEq, Repr

/-- A pending `setTimeout` callback with the wall-clock time (ms) it is due. -/
structure Timer where
  due : Int
  cb : Callback
  deriving DecidableEq, Repr

/-- The global variables of the script, the wall clock and the pending timers. -/
structure Game where
  map : Grid
  pelletsRemaining : Int
  mode : Mode
  schedIndex : Nat
  modeTimer : ℚ
  level : Int
  score : Int
  lives : Int
  fruitActive : Bool
  fruitPos : Option (Int × Int)
  fruitTimer : ℚ
  hero : Hero
  ghosts : List Ghost
  dotsEatenThisLevel : Nat
  chain : Int
  clock : Int
  timers : List Timer
  deriving Repr

/-- Table `schedule`: `(t, m)` pairs, `none` standing for `Infinity`. -/
def schedule : List (Option ℚ × Mode) :=
  [ (some 7, .scatter), (some 20, .chase),
    (some 7, .scatter), (some 20, .chase),
    (some 5, .scatter), (some 20, .chase),
    (Option.none, .chase) ]

/-- Table `fruits`: the score of each fruit. -/
def fruits : List Int := [100, 300, 500, 700, 1000]

/-- Release thresholds `thresholds` of `onDotEaten`. -/
def thresholds : List Nat := [0, 20, 40, 60]

/-- The house-gate coordinate `{ x: 13 * TILE, y: 15 * TILE }`. -/
def gate : Vec := ⟨13 * TILE, 15 * TILE⟩

/-- The level-start placement of the hero `{ x: 14 * TILE, y: 23 * TILE }`. -/
def heroStart : Vec := ⟨14 * TILE, 23 * TILE⟩

/-! ## Motion primitives -/

/-- Method `tile()`: row and column of a position. -/
def tile (p : Vec) : Int × Int := (Rat.floor (p.y / TILE), Rat.floor (p.x / TILE))

/-- Function `Math.round`. -/
def jsRound (x : ℚ) : Int := Rat.floor (x + 1 / 2)

/-- Function `canTurn(pos, d)`. -/
def canTurn (m : Grid) (pos : Vec) (d : Dir) : Bool :=
  if d = .none then false
  else
    let v := dirVec d
    let cx : ℚ := jsRound (pos.x / TILE) * TILE
    let cy : ℚ := jsRound (pos.y / TILE) * TILE
    !hitsWall m (cx + v.x) (cy + v.y)

/-- One iteration of the loop of `bestDir`: `acc` is `(best, bestDist)` with
`none` standing for `Infinity`. -/
def bestDirStep (m : Grid) (src dst : Vec) (acc : Dir × Option ℚ) (d : Dir) : Dir × Option ℚ :=
  let v := dirVec d
  let nx := src.x + v.x
  let ny := src.y + v.y
  if !hitsWall m nx ny then
    let dist := |nx - dst.x| + |ny - dst.y|
    match acc.2 with
    | Option.none => (d, some dist)
    | some b => if dist < b then (d, some dist) else acc
  else acc

/-- Function `bestDir(from, to)`. -/
def bestDir (m : Grid) (src dst : Vec) : Dir :=
  ([Dir.up, Dir.left, Dir.down, Dir.right].foldl (bestDirStep m src dst) (Dir.none, Option.none)).1

/-! ## Timers -/

/-- Call `setTimeout(cb, ms)`: the callback becomes due `ms` after the current
wall-clock time. -/
def setTimeout (s : Game) (cb : Callback) (ms : Int) : Game :=
  { s with timers := s.timers ++ [⟨s.clock + ms, cb⟩] }

/-! ## Mode and frightened -/

/-- Function `reverseGhosts()`. -/
def reverseGhosts (s : Game) : Game :=
  { s with ghosts := s.ghosts.map fun g => { g with dir := opposite g.dir } }

/-- Comparison `modeTimer >= t` against a schedule duration. -/
def reached (x : ℚ) : Option ℚ → Bool
  | Option.none => false
  | some t => decide (t ≤ x)

/-- Function `updateMode(dt)`; `none` when `schedule[schedIndex]` is
`undefined` and the script throws. -/
def updateMode (s : Game) (dt : ℚ) : Option Game :=
  let s1 := { s with modeTimer := s.modeTimer + dt }
  if s1.mode = .frightened then some s1
  else
    match schedule[s1.schedIndex]? with
    | Option.none => Option.none
    | some cur =>
      if reached s1.modeTimer cur.1 then
        let idx := min (s1.schedIndex + 1) (schedule.length - 1)
        match schedule[idx]? with
        | Option.none => Option.none
        | some nxt => some (reverseGhosts { s1 with schedIndex := idx, mode := nxt.2, modeTimer := 0 })
      else some s1

/-- Duration in ms of a frightened period at a level:
`Math.max(800, 6000 - (level - 1) * 250)`. -/
def frightMs (level : Int) : Int := max 800 (6000 - (level - 1) * 250)

/-- Function `energize()`. -/
def energize (s : Game) : Game :=
  let s1 := { s with mode := .frightened,
                     ghosts := s.ghosts.map fun g => { g with frightened := true } }
  setTimeout s1 .frightenedExpiry (frightMs s1.level)

/-- The callback that `energize` defers; `none` when `schedule[schedIndex]` is
`undefined` and the callback throws. -/
def frightenedExpiry (s : Game) : Option Game :=
  match schedule[s.schedIndex]? with
  | Option.none => Option.none
  | some cur =>
    some { s with ghosts := s.ghosts.map (fun g => { g with frightened := false }),
                  mode := cur.2 }

/-! ## Elroy and fruit -/

/-- Function `applyElroy()`; the array `ghosts` always holds four entries, the
first being the red one. -/
def applyElroy (s : Game) : Game :=
  match s.ghosts with
  | [] => s
  | red :: rest =>
    let red1 := if s.pelletsRemaining ≤ 60 then { red with baseSpeed := 31 / 5 } else red
    let red2 := if s.pelletsRemaining ≤ 20 then { red1 with baseSpeed := 13 / 2 } else red1
    { s with ghosts := red2 :: rest }

/-- Score of `fruitForLevel(lvl)`; for `lvl < 1`, which the script never
produces, the index is negative and the lookup is `undefined` (`none`). -/
def fruitForLevel (lvl : Int) : Option Int :=
  let idx : Int := min ((fruits.length : Int) - 1) ((lvl - 1) / 3)
  if idx < 0 then Option.none else fruits[idx.toNat]?

/-- Function `spawnFruit()`. -/
def spawnFruit (s : Game) : Game :=
  if s.fruitActive then s
  else { s with fruitPos := some (17, 13), fruitActive := true, fruitTimer := 10 }

/-- Function `updateFruit(dt)`. -/
def updateFruit (s : Game) (dt : ℚ) : Game :=
  if !s.fruitActive then s
  else
    let s1 := { s with fruitTimer := s.fruitTimer - dt }
    if s1.fruitTimer ≤ 0 then { s1 with fruitActive := false, fruitPos := Option.none } else s1

/-! ## Ghost house release logic -/

/-- The `forEach` of `onDotEaten` from index `i` on: a confined ghost whose
threshold is reached leaves the house. -/
def release (dots : Nat) : Nat → List Ghost → List Ghost
  | _, [] => []
  | i, g :: gs =>
    (match thresholds[i]? with
     | some t => if g.inHouse && decide (t ≤ dots) then { g with inHouse := false } else g
     | Option.none => g) :: release dots (i + 1) gs

/-- Function `onDotEaten()`. -/
def onDotEaten (s : Game) : Game :=
  let s1 := { s with dotsEatenThisLevel := s.dotsEatenThisLevel + 1 }
  let s2 := { s1 with ghosts := release s1.dotsEatenThisLevel 0 s1.ghosts }
  if s2.dotsEatenThisLevel = 70 ∨ s2.dotsEatenThisLevel = 170 then spawnFruit s2 else s2

/-! ## Collision and life cycle -/

/-- Function `eatScoreChain()`: the returned value and the state it leaves. -/
def eatScoreChain (s : Game) : Int × Game :=
  let val := s.chain
  let doubled := s.chain * 2
  (val, { s with chain := if doubled > 1600 then 200 else doubled })

/-- The level-start placement of the four ghosts, in array order. -/
def ghostStart : List Vec :=
  [⟨14 * TILE, 11 * TILE⟩, ⟨13 * TILE, 14 * TILE⟩, ⟨14 * TILE, 14 * TILE⟩, ⟨15 * TILE, 14 * TILE⟩]

/-- The assignments `ghosts[i].pos = ...` of `resetPositions`; the array
`ghosts` always holds four entries. -/
def placeGhosts : List Ghost → List Vec → List Ghost
  | g :: gs, p :: ps => { g with pos := p } :: placeGhosts gs ps
  | gs, _ => gs

/-- Function `resetPositions()`. -/
def resetPositions (s : Game) : Game :=
  { s with hero := { s.hero with pos := heroStart, dir := .none, nextDir := .none },
           ghosts := placeGhosts s.ghosts ghostStart }

/-- Function `gameOver()`. -/
def gameOver (s : Game) : Game :=
  setTimeout { s with lives := 3, level := 1, score := 0, chain := 200 } .gameOverRestart 1000

/-- Function `loseLife()`. -/
def loseLife (s : Game) : Game :=
  let s1 := { s with lives := s.lives - 1, hero := { s.hero with invincible := true } }
  let s2 := setTimeout s1 .lifeLostReset 1300
  if s2.lives ≤ 0 then gameOver s2 else s2

/-- The callback that `loseLife` defers. -/
def lifeLostReset (s : Game) : Game :=
  let s1 := resetPositions s
  { s1 with hero := { s1.hero with invincible := false } }

/-- The callback that `gameOver` defers. -/
def gameOverRestart (s : Game) : Game :=
  let p := generateMap s.level
  resetPositions { s with map := p.1, pelletsRemaining := p.2 }

/-- Proximity test of `checkCollisions`:
`Math.hypot(g.pos.x - hero.pos.x, g.pos.y - hero.pos.y) < TILE * 0.6`. -/
def overlap (a b : Vec) : Bool :=
  decide ((a.x - b.x) * (a.x - b.x) + (a.y - b.y) * (a.y - b.y) < (24 / 5 : ℚ) * (24 / 5))

/-- Body of the `forEach` callback of `checkCollisions` for one ghost: the
globals and the ghost it leaves. -/
def collideGhost (s : Game) (g : Ghost) : Game × Ghost :=
  if !overlap g.pos s.hero.pos then (s, g)
  else if g.frightened && !g.eyesOnly then
    let r := eatScoreChain s
    ({ r.2 with score := r.2.score + r.1 },
     { g with eyesOnly := true, frightened := false, target := some gate })
  else if !s.hero.invincible && !g.eyesOnly then (loseLife s, g)
  else (s, g)

/-- The `forEach` of `checkCollisions` over the array `ghosts`: every callback
sees the globals as the previous ones left them and mutates its own ghost. -/
def collideList : Game → List Ghost → Game × List Ghost
  | s, [] => (s, [])
  | s, g :: gs =>
    let r := collideGhost s g
    let rest := collideList r.1 gs
    (rest.1, r.2 :: rest.2)

/-- Function `checkCollisions()`. -/
def checkCollisions (s : Game) : Game :=
  let r := collideList s s.ghosts
  { r.1 with ghosts := r.2 }

/-! ## Level progression -/

/-- Function `nextLevel()`. -/
def nextLevel (s : Game) : Game :=
  let lvl := s.level + 1
  let p := generateMap lvl
  { s with level := lvl, chain := 200, dotsEatenThisLevel := 0,
           ghosts := s.ghosts.map fun g =>
             { g with eyesOnly := false, frightened := false, inHouse := true, baseSpeed := 11 / 2 },
           hero := { s.hero with pos := heroStart, dir := .none },
           mode := .scatter, modeTimer := 0, schedIndex := 0,
           map := p.1, pelletsRemaining := p.2 }

/-- Function `applyLevelSpeeds()`. -/
def applyLevelSpeeds (s : Game) : Game :=
  { s with hero := { s.hero with speedTiles := min 8 (6 + (s.level - 1 : ℚ) * (3 / 20)) },
           ghosts := s.ghosts.map fun g =>
             { g with baseSpeed := min (36 / 5) (11 / 2 + (s.level - 1 : ℚ) * (3 / 25)) } }

/-! ## Hero -/

/-- Method `Hero.eat()` of the class, before the dot-counting hook wraps it. -/
def Hero.eat (s : Game) : Game :=
  let rc := tile s.hero.pos
  let cell := cellAt s.map rc.1 rc.2
  let s1 :=
    if cell = some 2 then
      { s with map := setCell s.map rc.1 rc.2 0, pelletsRemaining := s.pelletsRemaining - 1,
               score := s.score + 10 }
    else if cell = some 3 then
      energize { s with map := setCell s.map rc.1 rc.2 0,
                        pelletsRemaining := s.pelletsRemaining - 1, score := s.score + 50 }
    else s
  if s1.fruitActive && s1.fruitPos == some rc then
    match fruitForLevel s1.level with
    | some f => { s1 with score := s1.score + f, fruitActive := false, fruitPos := Option.none }
    | Option.none => s1
  else s1

/-- The dot-counting hook that replaces `hero.eat` at start-up: it calls the
original method, then `onDotEaten` and `nextLevel` as the counters require. -/
def eatHook (s : Game) : Game :=
  let before := s.pelletsRemaining
  let s1 := Hero.eat s
  let s2 := if s1.pelletsRemaining < before then onDotEaten s1 else s1
  if s2.pelletsRemaining ≤ 0 then nextLevel s2 else s2

/-- The direction of the hero after the turn test of `Hero.update(dt)`. -/
def Hero.turned (s : Game) : Dir :=
  if canTurn s.map s.hero.pos s.hero.nextDir then s.hero.nextDir else s.hero.dir

/-- The tentative position `(nx, ny)` of `Hero.update(dt)` after the tunnel
wrap. -/
def Hero.tentative (s : Game) (dt : ℚ) : Vec :=
  let h := s.hero
  let v := dirVec (Hero.turned s)
  let speedPx := h.speedTiles * TILE
  let nx0 := h.pos.x + v.x * speedPx * dt
  let ny := h.pos.y + v.y * speedPx * dt
  let nx1 : ℚ := if nx0 < 0 then ((COLS - 1) * TILE : Nat) else nx0
  let nx : ℚ := if nx1 ≥ ((COLS * TILE : Nat) : ℚ) then 0 else nx1
  ⟨nx, ny⟩

/-- The move of `Hero.update(dt)`: turn, tentative position, wall check. -/
def Hero.move (s : Game) (dt : ℚ) : Game :=
  let p := Hero.tentative s dt
  { s with hero := { s.hero with dir := Hero.turned s,
                                 pos := if !hitsWall s.map p.x p.y then p else s.hero.pos } }

/-- Method `Hero.update(dt)`; its `this.eat()` is the hooked `hero.eat`. -/
def Hero.update (s : Game) (dt : ℚ) : Game :=
  eatHook (Hero.move s dt)

/-! ## Targeting helpers and ghosts -/

/-- Function `heroCenter()`. -/
def heroCenter (s : Game) : Vec := ⟨jsRound s.hero.pos.x, jsRound s.hero.pos.y⟩

/-- Function `aheadOfHero(n)`. -/
def aheadOfHero (s : Game) (n : ℚ) : Vec :=
  let v := dirVec s.hero.dir
  let c := heroCenter s
  let offset : Vec := if s.hero.dir = .up then ⟨-(TILE : ℚ), 0⟩ else ⟨0, 0⟩ -- up-direction quirk
  ⟨c.x + v.x * n * TILE + offset.x, c.y + v.y * n * TILE + offset.y⟩

/-- Function `cyanBlendTarget()`; `ghosts[0]` always exists. -/
def cyanBlendTarget (s : Game) : Vec :=
  let twoAhead := aheadOfHero s 2
  match s.ghosts with
  | [] => twoAhead
  | red :: _ =>
    let vx := (twoAhead.x - red.pos.x) * 2
    let vy := (twoAhead.y - red.pos.y) * 2
    ⟨red.pos.x + vx, red.pos.y + vy⟩

/-- Function `scatterCorner(t)`. -/
def scatterCorner : GhostType → Vec
  | .red => ⟨((COLS - 3) * TILE : Nat), (2 * TILE : Nat)⟩
  | .pink => ⟨(2 * TILE : Nat), (2 * TILE : Nat)⟩
  | .cyan => ⟨((COLS - 3) * TILE : Nat), ((ROWS - 3) * TILE : Nat)⟩
  | .orange => ⟨(2 * TILE : Nat), ((ROWS - 3) * TILE : Nat)⟩

/-- Function `orangeFeintTarget(pos)`: the test `Math.hypot(dx, dy) / TILE >= 8`
is `dx * dx + dy * dy >= (8 * TILE) * (8 * TILE)`. -/
def orangeFeintTarget (s : Game) (pos : Vec) : Vec :=
  let dx := pos.x - s.hero.pos.x
  let dy := pos.y - s.hero.pos.y
  if dx * dx + dy * dy ≥ ((8 * TILE) * (8 * TILE) : Nat) then heroCenter s
  else scatterCorner .orange

/-- Function `randomAdjacentTile(pos)`; `k` is the value of
`Math.floor(Math.random() * 4)`. -/
def randomAdjacentTile (pos : Vec) (k : Fin 4) : Vec :=
  let d := match k with
    | 0 => Dir.up
    | 1 => Dir.down
    | 2 => Dir.left
    | 3 => Dir.right
  let v := dirVec d
  ⟨pos.x + v.x * TILE, pos.y + v.y * TILE⟩

/-- Method `Ghost.chooseTarget()`: the value assigned to `this.target`. -/
def Ghost.chooseTarget (s : Game) (g : Ghost) (k : Fin 4) : Vec :=
  if g.eyesOnly then gate
  else if s.mode = .scatter then scatterCorner g.type
  else if g.frightened then randomAdjacentTile g.pos k
  else match g.type with
    | .red => heroCenter s
    | .pink => aheadOfHero s 4
    | .cyan => cyanBlendTarget s
    | .orange => orangeFeintTarget s g.pos

/-- Method `Ghost.move(dt)`. -/
def Ghost.move (m : Grid) (g : Ghost) (dt : ℚ) : Ghost :=
  let v := dirVec g.dir
  let speedPx := g.speedTiles * TILE
  let nx := g.pos.x + v.x * speedPx * dt
  let ny := g.pos.y + v.y * speedPx * dt
  if !hitsWall m nx ny then { g with pos := ⟨nx, ny⟩ } else g

/-- Method `Ghost.update(dt)`. -/
def Ghost.update (s : Game) (g : Ghost) (k : Fin 4) (dt : ℚ) : Ghost :=
  -- speed adjustments
  let rc := tile g.pos
  let speed0 := g.baseSpeed
  let speed1 := if cellAt s.map rc.1 rc.2 = some 4 then speed0 * (3 / 5) else speed0
  let speed2 := if g.frightened then speed1 * (4 / 5) else speed1
  let g1 := { g with speedTiles := speed2 }
  -- house gate logic: stay until released
  if g1.inHouse then
    Ghost.move s.map { g1 with dir := bestDir s.map g1.pos gate } dt
  else
    -- normal targeting
    let t := Ghost.chooseTarget s g1 k
    Ghost.move s.map { g1 with target := some t, dir := bestDir s.map g1.pos t } dt

/-- One callback of `ghosts.forEach(g => g.update(STEP))`: ghost `i` is updated
in the state the earlier ghosts left. -/
def updateGhostAt (rnd : Nat → Fin 4) (dt : ℚ) (s : Game) (i : Nat) : Game :=
  match s.ghosts[i]? with
  | Option.none => s
  | some g => { s with ghosts := s.ghosts.set i (Ghost.update s g (rnd i) dt) }

/-- The loop `ghosts.forEach(g => g.update(dt))`. -/
def updateGhosts (rnd : Nat → Fin 4) (dt : ℚ) (s : Game) : Game :=
  (List.range s.ghosts.length).foldl (updateGhostAt rnd dt) s

/-! ## Main loop, start-up and events -/

/-- One fixed step of the `while` loop of `loop`; `rnd i` is the random draw
of ghost `i` in this step. -/
def tick (rnd : Nat → Fin 4) (s : Game) : Option Game :=
  (updateMode s STEP).map fun s1 =>
    checkCollisions (updateFruit (applyElroy (updateGhosts rnd STEP (Hero.update s1 STEP))) STEP)

/-- A freshly constructed `Ghost`. -/
def Ghost.new (t : GhostType) (x y : ℚ) : Ghost :=
  { pos := ⟨x, y⟩, dir := .none, nextDir := .none, speedTiles := 11 / 2, type := t,
    frightened := false, eyesOnly := false, baseSpeed := 11 / 2, inHouse := true,
    dotCounter := 0, target := Option.none }

/-- The globals as their declarations initialise them, before `start()`. -/
def initial : Game :=
  { map := [], pelletsRemaining := 0, mode := .scatter, schedIndex := 0, modeTimer := 0,
    level := 1, score := 0, lives := 3,
    fruitActive := false, fruitPos := Option.none, fruitTimer := 0,
    hero := { pos := heroStart, dir := .none, nextDir := .none, speedTiles := 6,
              invincible := false },
    ghosts := [Ghost.new .red (14 * TILE) (11 * TILE), Ghost.new .pink (13 * TILE) (14 * TILE),
               Ghost.new .cyan (14 * TILE) (14 * TILE), Ghost.new .orange (15 * TILE) (14 * TILE)],
    dotsEatenThisLevel := 0, chain := 200, clock := 0, timers := [] }

/-- Function `start()`: the state in which the first frame runs. -/
def start : Game :=
  let p := generateMap initial.level
  resetPositions (applyLevelSpeeds { initial with map := p.1, pelletsRemaining := p.2 })

/-- Run one deferred callback. -/
def runCallback (cb : Callback) (s : Game) : Option Game :=
  match cb with
  | .frightenedExpiry => frightenedExpiry s
  | .lifeLostReset => some (lifeLostReset s)
  | .gameOverRestart => some (gameOverRestart s)

/-- The wall clock moves on by `ms` and the callbacks that became due run,
earliest first and in the order of their `setTimeout` calls among equals. None
of the callbacks reads the clock or sets a timer. -/
def advance (s : Game) (ms : Nat) : Option Game :=
  let now := s.clock + ms
  let due := (s.timers.filter fun t => decide (t.due ≤ now)).insertionSort
    (fun a b => a.due ≤ b.due)
  let rest := s.timers.filter fun t => !decide (t.due ≤ now)
  due.foldlM (fun g t => runCallback t.cb g) { s with clock := now, timers := rest }

/-- What can happen to the game: a simulation step, a direction key, or time
passing on the wall clock. -/
inductive Event where
  | tick (rnd : Nat → Fin 4)
  | key (d : Dir)
  | wait (ms : Nat)

/-- Effect of an event on the state. -/
def step (s : Game) : Event → Option Game
  | .tick rnd => tick rnd s
  | .key d => some (if d = .none then s else { s with hero := { s.hero with nextDir := d } })
  | .wait ms => advance s ms

/-- States the running game can be in. -/
inductive Reachable : Game → Prop where
  | start : Reachable start
  | step {s t : Game} (e : Event) : Reachable s → step s e = some t → Reachable t

/-! ## Scenario helpers -/

/-- The state with the hero placed at position `p`. -/
def heroAt (s : Game) (p : Vec) : Game := { s with hero := { s.hero with pos := p } }

/-- State after `k` consecutive calls of `eatScoreChain()`. -/
def afterCalls (s : Game) : Nat → Game
  | 0 => s
  | k + 1 => (eatScoreChain (afterCalls s k)).2

/-- The start state after the hero ate the pellet under it and then lost its
three lives, the pause of 1300 ms elapsing after the first and the second
loss: the third `loseLife` calls `gameOver`. -/
def lostAllLives : Option Game :=
  (advance (loseLife (eatHook start)) 1300).bind fun a =>
    (advance (loseLife a) 1300).map loseLife

/-- The steps that matter to the mode: an `updateMode(dt)` call of the loop, or
wall-clock time passing (with the callbacks that become due). -/
inductive ModeOp where
  | tick (dt : ℚ)
  | wait (ms : Nat)

/-- Effect of a mode step. -/
def ModeOp.run (s : Game) : ModeOp → Option Game
  | .tick dt => updateMode s dt
  | .wait ms => advance s ms

/-- Wall-clock time that a list of mode steps lets pass. -/
def totalWait : List ModeOp → Nat
  | [] => 0
  | .tick _ :: ops => totalWait ops
  | .wait ms :: ops => ms + totalWait ops

/-- The start state after a first frightened period in which the red ghost was
captured (the hero stands on it), followed by a second `energize`. -/
def secondPeriod : Game :=
  energize (checkCollisions (heroAt (energize start) ⟨14 * TILE, 11 * TILE⟩))

/-- A ghost the hero captures on contact: within reach, frightened and not
retreating. -/
def capturable (hero : Vec) (g : Ghost) : Bool :=
  overlap g.pos hero && (g.frightened && !g.eyesOnly)

/-- The ghost as a capture leaves it. -/
def captured (g : Ghost) : Ghost :=
  { g with eyesOnly := true, frightened := false, target := some gate }

/-- The start state with the hero standing on the pink ghost. -/
def onPink : Game := heroAt start ⟨13 * TILE, 14 * TILE⟩

/-- The pink ghost of the start state with its frightened flag set. -/
def pinkFrightened : Ghost :=
  { Ghost.new .pink (13 * TILE) (14 * TILE) with frightened := true }

/-- The confined flags (`inHouse`) of the ghosts, in array order. -/
def houseFlags (s : Game) : List Bool := s.ghosts.map fun g => g.inHouse

/-- The confined flags that go with an eaten-pellet count: ghost `i` is
confined while the count is below its threshold, and below 1 for threshold 0. -/
def confinedAt (dots : Nat) : List Bool := thresholds.map fun t => decide (dots < max t 1)

/-- The globals after one capture in `checkCollisions`: `score +=
eatScoreChain()`. -/
def award (s : Game) : Game :=
  { s with score := s.score + s.chain,
           chain := if s.chain * 2 > 1600 then 200 else s.chain * 2 }

/-- A frightened period in which the red ghost was already captured (chain at
400), the three other ghosts standing on the spot of the hero. -/
def threeInReach : Game :=
  let s := checkCollisions (heroAt (energize start) ⟨14 * TILE, 11 * TILE⟩)
  { s with ghosts := s.ghosts.map fun g =>
      if g.type = .red then g else { g with pos := s.hero.pos } }

/-- Frightened mode with the chain at 200 and the four ghosts on the spot of
the hero, the red one with its frightened flag cleared. -/
def fourthInContact : Game :=
  let s := energize start
  { s with ghosts := s.ghosts.map fun g =>
      if g.type = .red then { g with pos := s.hero.pos, frightened := false }
      else { g with pos := s.hero.pos } }

/-- Frightened mode with the chain at 200, the red ghost at its start place and
the three other ghosts on the spot of the hero. -/
def threeOnHero : Game :=
  let s := energize start
  { s with ghosts := s.ghosts.map fun g =>
      if g.type = .red then g else { g with pos := s.hero.pos } }

/-- The hero stands on tile `rc = (row, column)` and the hooked `hero.eat()`
runs. -/
def eatAt (s : Game) (rc : Int × Int) : Game :=
  eatHook (heroAt s ⟨(rc.2 : ℚ) * TILE, (rc.1 : ℚ) * TILE⟩)

/-- The hero eats on the tiles of a list, one after the other. -/
def eatAll (s : Game) (cs : List (Int × Int)) : Game := cs.foldl eatAt s

/-- The positions `(row, column)` of the cells of kind `v`, row by row. -/
def cellsOf (v : Nat) (m : Grid) : List (Int × Int) :=
  (List.range m.length).flatMap fun (r : Nat) =>
    ((List.range (m[r]?.getD []).length).filter
      fun (c : Nat) => cellAt m (r : Int) (c : Int) == some v).map
      fun (c : Nat) => ((r : Int), (c : Int))

/-- A base layout of `ROWS × COLS` cells with 248 open cells, the four
energizer places among them, and walls elsewhere. -/
def smallMaze : Grid :=
  (List.range ROWS).map fun r => (List.range COLS).map fun c =>
    if (r ∈ [3, 5, 7, 9, 11, 13, 19, 21, 27] ∧ 1 ≤ c ∧ c ≤ 26) ∨ (r = 23 ∧ 1 ≤ c ∧ c ≤ 14)
    then 0 else 1

/-- A level on the layout `smallMaze`, as `placeDotsAndEnergizers` fills it: 244
pellets, 4 power items, `pelletsRemaining = 248`, score 0. -/
def smallLevel : Game :=
  let p := placeDotsAndEnergizers smallMaze
  { start with map := p.1, pelletsRemaining := p.2 }

/-- A game on its last life at level 2 with a score of 120, the red ghost
(neither frightened nor retreating) standing on the spot of the hero. -/
def lastLifeContact : Game :=
  { start with lives := 1, level := 2, score := 120,
               ghosts := start.ghosts.map fun g =>
                 if g.type = .red then { g with pos := start.hero.pos } else g }

/-- The red ghost of `lastLifeContact`. -/
def redOnHero : Ghost := { Ghost.new .red (14 * TILE) (11 * TILE) with pos := heroStart }

/-- Width of the maze in pixels, `COLS * TILE`. -/
def mazeWidth : ℚ := ((COLS * TILE : Nat) : ℚ)

/-- Height of the maze in pixels, `ROWS * TILE`. -/
def mazeHeight : ℚ := ((ROWS * TILE : Nat) : ℚ)
/-- The one-step destination `(from.x + v.x, from.y + v.y)` that `bestDir`
probes for a direction. -/
def dest (src : Vec) (d : Dir) : Vec := ⟨src.x + (dirVec d).x, src.y + (dirVec d).y⟩

/-- Manhattan distance `Math.abs(a.x - b.x) + Math.abs(a.y - b.y)`. -/
def manhattan (a b : Vec) : ℚ := |a.x - b.x| + |a.y - b.y|

/-- The one-step destination of a direction is not a wall. -/
def openDir (m : Grid) (src : Vec) (d : Dir) : Bool :=
  !hitsWall m (dest src d).x (dest src d).y

/-- The tile `(row, column)` that `canTurn` rounds a position to:
`Math.round(pos.y / TILE)` and `Math.round(pos.x / TILE)`. -/
def roundedTile (pos : Vec) : Int × Int := (jsRound (pos.y / TILE), jsRound (pos.x / TILE))

/-- The cell `(row, column)` that `canTurn` tests: the one holding the point one
pixel from the corner of the rounded tile in direction `d`. -/
def probedCell (pos : Vec) : Dir → Int × Int
  | .up => ((roundedTile pos).1 - 1, (roundedTile pos).2)
  | .left => ((roundedTile pos).1, (roundedTile pos).2 - 1)
  | .down => roundedTile pos
  | .right => roundedTile pos
  | .none => roundedTile pos

/-- Chase mode with the hero one loop step to the right of its start place:
`Hero.move` puts it at x = 112.8, facing right. -/
def heroStepped : Game :=
  { Hero.move { start with hero := { start.hero with nextDir := .right } } STEP with
    mode := .chase }

/-- A free pink ghost, neither frightened nor retreating. -/
def pinkFree : Ghost := { Ghost.new .pink (13 * TILE) (14 * TILE) with inHouse := false }

/-- A retreating ghost, released from the house, standing on the house-gate
coordinate with the gate as its target. -/
def eyesAtGate : Ghost :=
  { Ghost.new .pink (13 * TILE) (15 * TILE) with
    eyesOnly := true, inHouse := false, target := some gate }

/-- The cells of the house interior, rows 14 to 16 and columns 12 to 15. -/
def houseInterior : List (Int × Int) :=
  [14, 15, 16].flatMap fun r => [12, 13, 14, 15].map fun c => (r, c)

/-- The ring of cells that surrounds the house interior: rows 13 to 17 and
columns 11 to 16 without the interior. -/
def houseRing : List (Int × Int) :=
  ([13, 14, 15, 16, 17].flatMap fun r => [11, 12, 13, 14, 15, 16].map fun c => (r, c)).filter
    fun rc => !houseInterior.contains rc

/-- A cell of the grid that is not a wall. -/
def openCell (m : Grid) (rc : Int × Int) : Bool :=
  match cellAt m rc.1 rc.2 with
  | some v => v != 1
  | Option.none => false

/-- The four neighbours of a cell: up, left, down, right. -/
def neighbours4 (rc : Int × Int) : List (Int × Int) :=
  [(rc.1 - 1, rc.2), (rc.1, rc.2 - 1), (rc.1 + 1, rc.2), (rc.1, rc.2 + 1)]

/-- The four neighbours of a cell and, on the first and the last column, the
cell that the tunnel wrap of `Hero.update` leads to on the other side. -/
def links (rc : Int × Int) : List (Int × Int) :=
  neighbours4 rc ++ (if rc.2 = 0 then [(rc.1, (COLS : Int) - 1)] else []) ++
    (if rc.2 = (COLS : Int) - 1 then [(rc.1, 0)] else [])

/-- A path of non-wall cells from `a`, each cell among the `nb` of the one
before it. -/
inductive Path (nb : Int × Int → List (Int × Int)) (m : Grid) (a : Int × Int) :
    Int × Int → Prop where
  | start : openCell m a = true → Path nb m a a
  | step {b c : Int × Int} : Path nb m a b → c ∈ nb b → openCell m c = true → Path nb m a c

/-- One round of a flood fill: the cells seen so far and the non-wall cells
next to them. -/
def grow (nb : Int × Int → List (Int × Int)) (m : Grid) (seen : List (Int × Int)) :
    List (Int × Int) :=
  seen ++ ((seen.flatMap nb).filter fun c => openCell m c && !seen.contains c).dedup

/-- Flood fill from the cells of `seen`, at most `n` rounds, stopping when a
round adds nothing. -/
def flood (nb : Int × Int → List (Int × Int)) (m : Grid) : Nat → List (Int × Int) →
    List (Int × Int)
  | 0, seen => seen
  | n + 1, seen =>
    if (grow nb m seen).length = seen.length then seen else flood nb m n (grow nb m seen)

/-- The tile `(row, column)` on which the hero starts a level. -/
def heroStartTile : Int × Int := (23, 14)

/-- The cells the flood fill of the level-1 map reaches from the start tile of
the hero. -/
def heroRegion : List (Int × Int) :=
  flood links (generateMap 1).1 (ROWS * COLS) [heroStartTile]

/-- The pellet and power-item cells of the level-1 map. -/
def levelOnePellets : List (Int × Int) :=
  cellsOf 2 (generateMap 1).1 ++ cellsOf 3 (generateMap 1).1

/-! # Theorems -/

/-! ## Grid lemmas -/

theorem cellAt_setCell_ne_one (m : Grid) (r c r1 c1 : Int) (v : Nat) (hv : v ≠ 1)
    (h : cellAt (setCell m r c v) r1 c1 = some 1) : cellAt m r1 c1 = some 1 := by
  unfold cellAt setCell at *
  by_cases hneg : r1 < 0 ∨ c1 < 0
  · simp [hneg] at h
  · simp only [hneg, if_false] at h ⊢
    by_cases hrc : r < 0 ∨ c < 0
    · simpa [hrc] using h
    · simp only [hrc, if_false] at h
      rw [List.getElem?_modify] at h
      cases hrow : m[r1.toNat]? with
      | none => simp [hrow] at h
      | some row =>
        simp only [hrow, Option.map_some', Option.some_bind] at h ⊢
        by_cases hr : r.toNat = r1.toNat
        · simp only [hr, if_true, Option.map_eq_map, Option.map_some', Option.some_bind] at h
          rw [List.getElem?_set] at h
          by_cases hc : c.toNat = c1.toNat
          · simp only [hc, if_true] at h
            split at h
            · simp at h; exact absurd h hv
            · simp at h
          · simpa [hc] using h
        · simpa [hr] using h

theorem hitsWall_setCell (m : Grid) (r c : Int) (v : Nat) (hv : v ≠ 1) (x y : ℚ)
    (h : hitsWall m x y = false) : hitsWall (setCell m r c v) x y = false := by
  unfold hitsWall at *
  by_contra hc
  simp only [Bool.not_eq_false, beq_iff_eq] at hc
  have := cellAt_setCell_ne_one m r c _ _ v hv hc
  simp [this] at h

/-! ## The hero stays out of walls -/

theorem Hero.move_map (s : Game) (dt : ℚ) : (Hero.move s dt).map = s.map := rfl

theorem Hero.move_safe (s : Game) (dt : ℚ)
    (h : hitsWall s.map s.hero.pos.x s.hero.pos.y = false) :
    hitsWall s.map (Hero.move s dt).hero.pos.x (Hero.move s dt).hero.pos.y = false := by
  simp only [Hero.move]
  cases hw : hitsWall s.map (Hero.tentative s dt).x (Hero.tentative s dt).y
  · simpa using hw
  · simpa using h

theorem energize_map (s : Game) : (energize s).map = s.map := rfl

theorem energize_hero (s : Game) : (energize s).hero = s.hero := rfl

theorem Hero.eat_hero (s : Game) : (Hero.eat s).hero = s.hero := by
  unfold Hero.eat
  simp only []
  split_ifs <;> (try split) <;> simp [energize_hero]

theorem Hero.eat_safe (s : Game) (x y : ℚ) (h : hitsWall s.map x y = false) :
    hitsWall (Hero.eat s).map x y = false := by
  have h0 := hitsWall_setCell s.map (tile s.hero.pos).1 (tile s.hero.pos).2 0 (by decide) x y h
  unfold Hero.eat
  simp only []
  split_ifs <;> (try split) <;> simp [energize_map, h, h0]

theorem onDotEaten_map (s : Game) : (onDotEaten s).map = s.map := by
  unfold onDotEaten spawnFruit
  simp only []
  split_ifs <;> rfl

theorem onDotEaten_hero (s : Game) : (onDotEaten s).hero = s.hero := by
  unfold onDotEaten spawnFruit
  simp only []
  split_ifs <;> rfl

theorem floor_heroStart_y : Rat.floor (heroStart.y / TILE) = 23 := by
  rw [Rat.floor_def']; norm_num [heroStart, TILE]

theorem floor_heroStart_x : Rat.floor (heroStart.x / TILE) = 14 := by
  rw [Rat.floor_def']; norm_num [heroStart, TILE]

theorem heroStart_safe (lvl : Int) :
    hitsWall (generateMap lvl).1 heroStart.x heroStart.y = false := by
  unfold hitsWall
  rw [floor_heroStart_y, floor_heroStart_x]
  unfold generateMap
  simp only []
  split_ifs
  · decide
  · decide

theorem nextLevel_safe (s : Game) :
    hitsWall (nextLevel s).map (nextLevel s).hero.pos.x (nextLevel s).hero.pos.y = false :=
  heroStart_safe (s.level + 1)

theorem eatHook_safe (s : Game) (h : hitsWall s.map s.hero.pos.x s.hero.pos.y = false) :
    hitsWall (eatHook s).map (eatHook s).hero.pos.x (eatHook s).hero.pos.y = false := by
  have h2 := Hero.eat_safe s _ _ h
  rw [← Hero.eat_hero s] at h2
  have h3 := h2
  rw [← onDotEaten_map, ← onDotEaten_hero] at h3
  unfold eatHook
  simp only []
  split_ifs
  · exact nextLevel_safe _
  · exact h3
  · exact nextLevel_safe _
  · exact h2

/-- C1: if the position of the hero is not in a wall cell of the current map,
then after `Hero.update(dt)` (turn, move with tunnel wrap or rejected move, the
hooked `eat`, and `nextLevel` when the last pellet was eaten) it is not in a
wall cell of the map that is then current. -/
theorem hero_update_never_in_wall (s : Game) (dt : ℚ)
    (h : hitsWall s.map s.hero.pos.x s.hero.pos.y = false) :
    hitsWall (Hero.update s dt).map (Hero.update s dt).hero.pos.x
      (Hero.update s dt).hero.pos.y = false := by
  have h1 := Hero.move_safe s dt h
  rw [← Hero.move_map s dt] at h1
  exact eatHook_safe _ h1

theorem start_map : start.map = (generateMap 1).1 := rfl

theorem start_hero_pos : start.hero.pos = heroStart := rfl

/-- Witness of C1 at the start state and the fixed step of the loop. -/
theorem hero_update_never_in_wall_witness :
    hitsWall start.map start.hero.pos.x start.hero.pos.y = false ∧
    hitsWall (Hero.update start STEP).map (Hero.update start STEP).hero.pos.x
      (Hero.update start STEP).hero.pos.y = false :=
  ⟨by rw [start_map, start_hero_pos]; exact heroStart_safe 1,
   hero_update_never_in_wall start STEP
     (by rw [start_map, start_hero_pos]; exact heroStart_safe 1)⟩

/-! ## Pellet conservation -/

/-- C2 (defect): the pellet eaten at the start tile leaves 1 + 513 = 514, the
count `generateMap` set, and the three life losses, the last of which calls
`gameOver`, keep it. The deferred restart of `gameOver`, one second later,
regenerates the map and sets `pelletsRemaining` back to 514 while
`dotsEatenThisLevel` keeps its value 1, so the sum is 515. -/
theorem pellet_conservation_lost_by_gameOver_restart :
    (generateMap start.level).2 = 514 ∧
    ((eatHook start).dotsEatenThisLevel : Int) + (eatHook start).pelletsRemaining = 514 ∧
    lostAllLives.map
      (fun t => ((t.dotsEatenThisLevel : Int) + t.pelletsRemaining, t.lives, t.level))
      = some (514, 3, 1) ∧
    (lostAllLives.bind fun t => advance t 1000).map
      (fun t => ((t.dotsEatenThisLevel : Int) + t.pelletsRemaining, (generateMap t.level).2))
      = some (515, 514) := by
  decide!

/-! ## Power items and frightened mode -/

theorem energize_mode (s : Game) : (energize s).mode = .frightened := rfl

theorem energize_ghosts (s : Game) :
    (energize s).ghosts = s.ghosts.map fun g => { g with frightened := true } := rfl

theorem Hero.eat_energizer (s : Game)
    (h : cellAt s.map (tile s.hero.pos).1 (tile s.hero.pos).2 = some 3) :
    (Hero.eat s).mode = .frightened ∧
    ∀ g ∈ (Hero.eat s).ghosts, g.eyesOnly = false → g.frightened = true := by
  unfold Hero.eat
  simp only [h]
  simp only [show ¬ ((some 3 : Option Nat) = some 2) by decide, if_false, if_true]
  split_ifs <;> (try split) <;>
    simp [energize_mode, energize_ghosts]

/-- C3: when `Hero.eat` runs with the hero on a power-item cell (kind 3), the
mode it leaves is frightened and every adversary that is not retreating has its
frightened flag set. -/
theorem eat_power_item_triggers_frightened (s : Game)
    (h : cellAt s.map (tile s.hero.pos).1 (tile s.hero.pos).2 = some 3) :
    (Hero.eat s).mode = .frightened ∧
    ∀ g ∈ (Hero.eat s).ghosts, g.eyesOnly = false → g.frightened = true :=
  Hero.eat_energizer s h

/-- Witness of C3: the hero on the power item of row 3, column 2 of level 1. -/
theorem eat_power_item_triggers_frightened_witness :
    cellAt (heroAt start ⟨16, 24⟩).map (tile (heroAt start ⟨16, 24⟩).hero.pos).1
      (tile (heroAt start ⟨16, 24⟩).hero.pos).2 = some 3 ∧
    ((Hero.eat (heroAt start ⟨16, 24⟩)).mode = .frightened ∧
     ∀ g ∈ (Hero.eat (heroAt start ⟨16, 24⟩)).ghosts,
       g.eyesOnly = false → g.frightened = true) :=
  ⟨by decide!, eat_power_item_triggers_frightened (heroAt start ⟨16, 24⟩) (by decide!)⟩

theorem release_map {α : Type} (f : Ghost → α)
    (hf : ∀ g : Ghost, f { g with inHouse := false } = f g) (dots : Nat) :
    ∀ (i : Nat) (gs : List Ghost), (release dots i gs).map f = gs.map f
  | _, [] => rfl
  | i, g :: gs => by
    simp only [release, List.map_cons, release_map f hf dots (i + 1) gs]
    congr 1
    split
    · split_ifs
      · exact hf g
      · rfl
    · rfl

theorem onDotEaten_mode (s : Game) : (onDotEaten s).mode = s.mode := by
  unfold onDotEaten spawnFruit
  simp only []
  split_ifs <;> rfl

theorem onDotEaten_ghosts (s : Game) :
    (onDotEaten s).ghosts = release (s.dotsEatenThisLevel + 1) 0 s.ghosts := by
  unfold onDotEaten spawnFruit
  simp only []
  split_ifs <;> rfl

theorem onDotEaten_pelletsRemaining (s : Game) :
    (onDotEaten s).pelletsRemaining = s.pelletsRemaining := by
  unfold onDotEaten spawnFruit
  simp only []
  split_ifs <;> rfl

/-- The hooked `eat` keeps the outcome of C3 unless the power item was the last
pellet of the level, in which case it goes on to `nextLevel`. -/
theorem eatHook_power_item (s : Game)
    (h : cellAt s.map (tile s.hero.pos).1 (tile s.hero.pos).2 = some 3)
    (hrem : 0 < (Hero.eat s).pelletsRemaining) :
    (eatHook s).mode = .frightened ∧
    ∀ g ∈ (eatHook s).ghosts, g.eyesOnly = false → g.frightened = true := by
  obtain ⟨hm, hg⟩ := Hero.eat_energizer s h
  have hg2 : ∀ p ∈ (Hero.eat s).ghosts.map (fun g => (g.eyesOnly, g.frightened)),
      p.1 = false → p.2 = true := by
    intro p hp
    obtain ⟨g, hgm, rfl⟩ := List.mem_map.1 hp
    exact hg g hgm
  unfold eatHook
  simp only []
  split_ifs with h1 h2 h2
  · rw [onDotEaten_pelletsRemaining] at h2; omega
  · refine ⟨by rw [onDotEaten_mode]; exact hm, fun g hgm => ?_⟩
    rw [onDotEaten_ghosts] at hgm
    have := List.mem_map_of_mem (fun g => (g.eyesOnly, g.frightened)) hgm
    rw [release_map (fun g => (g.eyesOnly, g.frightened)) (fun _ => rfl)] at this
    exact hg2 _ this
  · omega
  · exact ⟨hm, hg⟩

/-! ## Frightened mode is an interrupt of the schedule -/

theorem updateMode_frightened (s : Game) (dt : ℚ) (h : s.mode = .frightened) :
    updateMode s dt = some { s with modeTimer := s.modeTimer + dt } := by
  unfold updateMode
  simp [h]

theorem updateMode_fold_frightened (dts : List ℚ) :
    ∀ s : Game, s.mode = .frightened →
      ∃ t, dts.foldlM updateMode s = some t ∧ t.mode = .frightened ∧
        t.schedIndex = s.schedIndex
  | s, h => by
    induction dts generalizing s with
    | nil => exact ⟨s, rfl, h, rfl⟩
    | cons dt dts ih =>
      rw [List.foldlM_cons, updateMode_frightened s dt h]
      obtain ⟨t, ht, hm, hi⟩ := ih { s with modeTimer := s.modeTimer + dt } h
      exact ⟨t, ht, hm, hi⟩

/-- C4: from a state whose mode is the one the schedule gives for `schedIndex`
(which makes it scatter or chase), `energize`, then any number of `updateMode`
calls, then the expiry callback all run without a throw, leave `schedIndex`
unchanged and restore the mode that was interrupted. -/
theorem frightened_interrupts_schedule (s : Game) (dts : List ℚ)
    (hs : schedule[s.schedIndex]?.map (fun e => e.2) = some s.mode) :
    ∃ t u, dts.foldlM updateMode (energize s) = some t ∧ frightenedExpiry t = some u ∧
      u.schedIndex = s.schedIndex ∧ u.mode = s.mode := by
  obtain ⟨t, ht, _, hi⟩ := updateMode_fold_frightened dts (energize s) (energize_mode s)
  have hi2 : t.schedIndex = s.schedIndex := hi
  cases hcur : schedule[s.schedIndex]? with
  | none => simp [hcur] at hs
  | some cur =>
    simp only [hcur, Option.map_some', Option.some.injEq] at hs
    have he : frightenedExpiry t = some { t with
        ghosts := t.ghosts.map (fun g => { g with frightened := false }), mode := cur.2 } := by
      unfold frightenedExpiry
      rw [hi2, hcur]
    exact ⟨t, _, ht, he, hi2, hs⟩

/-- Witness of C4: the start state (scatter, phase 0) and two loop steps. -/
theorem frightened_interrupts_schedule_witness :
    schedule[start.schedIndex]?.map (fun e => e.2) = some start.mode ∧
    ∃ t u, [STEP, STEP].foldlM updateMode (energize start) = some t ∧
      frightenedExpiry t = some u ∧ u.schedIndex = start.schedIndex ∧ u.mode = start.mode :=
  ⟨by decide, frightened_interrupts_schedule start [STEP, STEP] (by decide)⟩

theorem schedule_mode_ne_frightened (i : Nat) (e : Option ℚ × Mode)
    (h : schedule[i]? = some e) : e.2 ≠ .frightened := by
  have hmem := List.getElem?_mem h
  simp only [schedule, List.mem_cons, List.mem_singleton, List.not_mem_nil, or_false] at hmem
  rcases hmem with h | h | h | h | h | h | h <;> rw [h] <;> decide

/-! ## Duration of a frightened period -/

/-- C5 (counterexample): at level 1 a frightened period lasts 6000 ms. After
`energize` at time 0 and a second `energize` at time 5000, the callback of the
first one runs at time 6000, before 5000 + 6000: the mode is back to scatter
and every frightened flag is cleared. -/
theorem frightened_period_cut_short :
    ((advance (energize start) 5000).bind fun t =>
      (advance (energize t) 1000).map fun u =>
        (t.clock, frightMs t.level, u.clock, u.mode, u.ghosts.map fun g => g.frightened))
      = some (5000, 6000, 6000, Mode.scatter, [false, false, false, false]) := by
  decide!

theorem placeGhosts_map {α : Type} (f : Ghost → α)
    (hf : ∀ (g : Ghost) (p : Vec), f { g with pos := p } = f g) :
    ∀ (gs : List Ghost) (ps : List Vec), (placeGhosts gs ps).map f = gs.map f
  | [], _ => by simp [placeGhosts]
  | _ :: _, [] => by simp [placeGhosts]
  | g :: gs, p :: ps => by
    simp only [placeGhosts, List.map_cons, placeGhosts_map f hf gs ps, hf]

/-- A callback other than the frightened expiry runs without a throw and leaves
the mode, the timers, the clock, the schedule index and every ghost flag that
does not depend on the position. -/
theorem runCallback_other {α : Type} (f : Ghost → α)
    (hf : ∀ (g : Ghost) (p : Vec), f { g with pos := p } = f g)
    (cb : Callback) (hcb : cb ≠ .frightenedExpiry) (s : Game) :
    ∃ t, runCallback cb s = some t ∧ t.mode = s.mode ∧ t.ghosts.map f = s.ghosts.map f ∧
      t.timers = s.timers ∧ t.clock = s.clock ∧ t.level = s.level := by
  cases cb with
  | frightenedExpiry => exact absurd rfl hcb
  | lifeLostReset =>
    exact ⟨_, rfl, rfl, placeGhosts_map f hf _ _, rfl, rfl, rfl⟩
  | gameOverRestart =>
    exact ⟨_, rfl, rfl, placeGhosts_map f hf _ _, rfl, rfl, rfl⟩

theorem foldlM_runCallback_other {α : Type} (f : Ghost → α)
    (hf : ∀ (g : Ghost) (p : Vec), f { g with pos := p } = f g) :
    ∀ (l : List Timer) (s : Game), (∀ tm ∈ l, tm.cb ≠ .frightenedExpiry) →
      ∃ t, l.foldlM (fun g tm => runCallback tm.cb g) s = some t ∧ t.mode = s.mode ∧
        t.ghosts.map f = s.ghosts.map f ∧ t.timers = s.timers ∧ t.clock = s.clock ∧
        t.level = s.level
  | [], s, _ => ⟨s, rfl, rfl, rfl, rfl, rfl, rfl⟩
  | tm :: l, s, h => by
    obtain ⟨t, ht, h1, h2, h3, h4, h5⟩ :=
      runCallback_other f hf tm.cb (h tm (List.mem_cons_self _ _)) s
    obtain ⟨u, hu, g1, g2, g3, g4, g5⟩ :=
      foldlM_runCallback_other f hf l t (fun x hx => h x (List.mem_cons_of_mem _ hx))
    refine ⟨u, ?_, g1.trans h1, g2.trans h2, g3.trans h3, g4.trans h4, g5.trans h5⟩
    rw [List.foldlM_cons, ht]
    exact hu

/-- While no frightened-expiry callback is due, `advance` runs without a throw
and leaves the mode and the position-independent ghost flags. -/
theorem advance_no_expiry {α : Type} (f : Ghost → α)
    (hf : ∀ (g : Ghost) (p : Vec), f { g with pos := p } = f g) (s : Game) (ms : Nat)
    (h : ∀ tm ∈ s.timers, tm.cb = .frightenedExpiry → s.clock + ms < tm.due) :
    ∃ t, advance s ms = some t ∧ t.mode = s.mode ∧ t.ghosts.map f = s.ghosts.map f ∧
      t.timers = s.timers.filter (fun tm => !decide (tm.due ≤ s.clock + ms)) ∧
      t.clock = s.clock + ms ∧ t.level = s.level := by
  unfold advance
  simp only []
  apply foldlM_runCallback_other f hf
  intro tm htm hcb
  have hmem := ((List.perm_insertionSort _ _).mem_iff).1 htm
  rw [List.mem_filter] at hmem
  have := h tm hmem.1 hcb
  have h2 : tm.due ≤ s.clock + ms := by simpa using hmem.2
  omega

theorem modeOp_run_frightened (T : Int) (op : ModeOp) (u : Game)
    (hm : u.mode = .frightened) (hf : ∀ g ∈ u.ghosts, g.frightened = true)
    (hp : ∀ tm ∈ u.timers, tm.cb = .frightenedExpiry → T ≤ tm.due)
    (hT : (⟨T, .frightenedExpiry⟩ : Timer) ∈ u.timers)
    (hlt : u.clock + totalWait [op] < T) :
    ∃ v, ModeOp.run u op = some v ∧ v.mode = .frightened ∧
      (∀ g ∈ v.ghosts, g.frightened = true) ∧
      (∀ tm ∈ v.timers, tm.cb = .frightenedExpiry → T ≤ tm.due) ∧
      (⟨T, .frightenedExpiry⟩ : Timer) ∈ v.timers ∧
      v.clock = u.clock + totalWait [op] := by
  cases op with
  | tick dt =>
    refine ⟨_, updateMode_frightened u dt hm, hm, hf, hp, hT, ?_⟩
    simp [totalWait]
  | wait ms =>
    simp only [totalWait, Nat.add_zero] at hlt ⊢
    obtain ⟨v, hv, h1, h2, h3, h4, _⟩ :=
      advance_no_expiry (fun g => g.frightened) (fun _ _ => rfl) u ms
        (fun tm htm hcb => lt_of_lt_of_le hlt (hp tm htm hcb))
    refine ⟨v, hv, h1.trans hm, ?_, ?_, ?_, h4⟩
    · intro g hg
      have hmem := List.mem_map_of_mem (fun g => g.frightened) hg
      rw [h2] at hmem
      obtain ⟨g0, hg0, he⟩ := List.mem_map.1 hmem
      have he2 : g0.frightened = g.frightened := he
      rw [← he2]
      exact hf g0 hg0
    · intro tm htm hcb
      rw [h3] at htm
      exact hp tm (List.mem_filter.1 htm).1 hcb
    · rw [h3, List.mem_filter]
      refine ⟨hT, ?_⟩
      simp only [Bool.not_eq_true', decide_eq_false_iff_not, not_le]
      exact hlt

theorem modeOps_run_frightened (T : Int) :
    ∀ (ops : List ModeOp) (u : Game), u.mode = .frightened →
      (∀ g ∈ u.ghosts, g.frightened = true) →
      (∀ tm ∈ u.timers, tm.cb = .frightenedExpiry → T ≤ tm.due) →
      (⟨T, .frightenedExpiry⟩ : Timer) ∈ u.timers →
      u.clock + totalWait ops < T →
      ∃ v, ops.foldlM ModeOp.run u = some v ∧ v.mode = .frightened ∧
        (∀ g ∈ v.ghosts, g.frightened = true) ∧
        (⟨T, .frightenedExpiry⟩ : Timer) ∈ v.timers ∧
        v.clock = u.clock + totalWait ops
  | [], u, hm, hf, _, hT, _ => ⟨u, rfl, hm, hf, hT, by simp [totalWait]⟩
  | op :: ops, u, hm, hf, hp, hT, hlt => by
    have hsplit : totalWait (op :: ops) = totalWait [op] + totalWait ops := by
      cases op <;> simp [totalWait]
    have hlt1 : u.clock + totalWait [op] < T := by
      rw [hsplit] at hlt; push_cast at hlt; omega
    obtain ⟨v, hv, vm, vf, vp, vT, vc⟩ := modeOp_run_frightened T op u hm hf hp hT hlt1
    have hlt2 : v.clock + totalWait ops < T := by
      rw [vc]; rw [hsplit] at hlt; push_cast at hlt; omega
    obtain ⟨w, hw, wm, wf, wT, wc⟩ := modeOps_run_frightened T ops v vm vf vp vT hlt2
    refine ⟨w, ?_, wm, wf, wT, ?_⟩
    · rw [List.foldlM_cons, hv]; exact hw
    · rw [wc, vc, hsplit]; push_cast; omega

/-- C5 (amended): `energize` at wall-clock time `t` and level `L` schedules its
expiry callback for `t + max(800, 6000 - 250 * (L - 1))` ms. If no expiry
callback of an earlier `energize` is pending with an earlier due time, then
through `updateMode` calls and timer firings, as long as the wall clock is
before that time, nothing throws, the mode stays frightened, every frightened
flag stays set and the callback stays pending. -/
theorem frightened_lasts_computed_duration (s : Game) (ops : List ModeOp)
    (hpend : ∀ tm ∈ s.timers, tm.cb = .frightenedExpiry →
      s.clock + frightMs s.level ≤ tm.due)
    (hlt : (totalWait ops : Int) < frightMs s.level) :
    frightMs s.level = max 800 (6000 - 250 * (s.level - 1)) ∧
    ∃ u, ops.foldlM ModeOp.run (energize s) = some u ∧ u.mode = .frightened ∧
      (∀ g ∈ u.ghosts, g.frightened = true) ∧
      (⟨s.clock + frightMs s.level, .frightenedExpiry⟩ : Timer) ∈ u.timers ∧
      u.clock = s.clock + totalWait ops := by
  refine ⟨by unfold frightMs; ring_nf, ?_⟩
  apply modeOps_run_frightened (s.clock + frightMs s.level) ops (energize s) rfl
  · intro g hg
    rw [energize_ghosts] at hg
    obtain ⟨g0, _, rfl⟩ := List.mem_map.1 hg
    rfl
  · intro tm htm hcb
    have : tm ∈ s.timers ++ [(⟨s.clock + frightMs s.level, .frightenedExpiry⟩ : Timer)] := htm
    rcases List.mem_append.1 this with h | h
    · exact hpend tm h hcb
    · rw [List.mem_singleton.1 h]
  · show _ ∈ s.timers ++ [(⟨s.clock + frightMs s.level, .frightenedExpiry⟩ : Timer)]
    simp
  · show s.clock + (totalWait ops : Int) < s.clock + frightMs s.level
    omega

/-- Witness of C5 (amended): at the start state no timer is pending; 3000 ms,
a loop step and 2999 ms more stay inside the 6000 ms of level 1. -/
theorem frightened_lasts_computed_duration_witness :
    (∀ tm ∈ start.timers, tm.cb = .frightenedExpiry →
      start.clock + frightMs start.level ≤ tm.due) ∧
    (totalWait [.wait 3000, .tick STEP, .wait 2999] : Int) < frightMs start.level ∧
    frightMs start.level = max 800 (6000 - 250 * (start.level - 1)) ∧
    ∃ u, [ModeOp.wait 3000, .tick STEP, .wait 2999].foldlM ModeOp.run (energize start) = some u ∧
      u.mode = .frightened ∧ (∀ g ∈ u.ghosts, g.frightened = true) ∧
      (⟨start.clock + frightMs start.level, .frightenedExpiry⟩ : Timer) ∈ u.timers ∧
      u.clock = start.clock + totalWait [.wait 3000, .tick STEP, .wait 2999] :=
  ⟨by intro tm htm; exact absurd htm (List.not_mem_nil tm), by decide,
   frightened_lasts_computed_duration start [.wait 3000, .tick STEP, .wait 2999]
     (by intro tm htm; exact absurd htm (List.not_mem_nil tm)) (by decide)⟩

/-- The expiry callback carries no guard: whenever it runs without a throw, in
whatever state, it clears the frightened flag of every ghost and sets the mode
to that of the current schedule phase, and it leaves the pending timers of
later `energize` calls in place. -/
theorem frightenedExpiry_unguarded (s t : Game) (h : frightenedExpiry s = some t) :
    (∀ g ∈ t.ghosts, g.frightened = false) ∧
    schedule[s.schedIndex]?.map (fun e => e.2) = some t.mode ∧
    t.mode ≠ .frightened ∧ t.timers = s.timers := by
  unfold frightenedExpiry at h
  cases hcur : schedule[s.schedIndex]? with
  | none => rw [hcur] at h; cases h
  | some cur =>
    rw [hcur] at h
    cases h
    refine ⟨?_, rfl, schedule_mode_ne_frightened _ cur hcur, rfl⟩
    intro g hg
    obtain ⟨g0, _, rfl⟩ := List.mem_map.1 hg
    rfl

/-! ## Chain scoring -/

/-- C6 (counterexample): from the base value 200 the fifth consecutive call of
`eatScoreChain` returns 200, not min(200 * 2^4, 1600) = 1600. -/
theorem chain_fifth_call_returns_200 :
    start.chain = 200 ∧ (eatScoreChain (afterCalls start 4)).1 = 200 ∧
    ¬ ∀ k : Nat, 1 ≤ k →
      (eatScoreChain (afterCalls start (k - 1))).1 = min (200 * 2 ^ (k - 1)) 1600 := by
  refine ⟨by decide!, by decide!, fun h => ?_⟩
  have h5 := h 5 (by decide)
  revert h5
  decide!

theorem afterCalls_chain (s : Game) (h : s.chain = 200) :
    ∀ k : Nat, (afterCalls s k).chain = 200 * 2 ^ (k % 4)
  | 0 => by simp [afterCalls, h]
  | k + 1 => by
    have ih := afterCalls_chain s h k
    have hk : k % 4 = 0 ∨ k % 4 = 1 ∨ k % 4 = 2 ∨ k % 4 = 3 := by omega
    simp only [afterCalls, eatScoreChain, ih]
    rcases hk with h0 | h0 | h0 | h0
    · rw [h0, show (k + 1) % 4 = 1 by omega]; norm_num
    · rw [h0, show (k + 1) % 4 = 2 by omega]; norm_num
    · rw [h0, show (k + 1) % 4 = 3 by omega]; norm_num
    · rw [h0, show (k + 1) % 4 = 0 by omega]; norm_num

/-- C6 (amended): from the base chain value 200, for every k >= 1 the k-th
consecutive call of `eatScoreChain` returns 200 * 2^((k - 1) mod 4), that is
200, 400, 800, 1600 and then 200 again: the value never exceeds 1600, and it
equals min(200 * 2^(k - 1), 1600) for the first four calls. -/
theorem chain_kth_call (s : Game) (h : s.chain = 200) (k : Nat) (hk : 1 ≤ k) :
    (eatScoreChain (afterCalls s (k - 1))).1 = 200 * 2 ^ ((k - 1) % 4) ∧
    (eatScoreChain (afterCalls s (k - 1))).1 ≤ 1600 ∧
    (k ≤ 4 → (eatScoreChain (afterCalls s (k - 1))).1 = min (200 * 2 ^ (k - 1)) 1600) := by
  have hc := afterCalls_chain s h (k - 1)
  have hv : (eatScoreChain (afterCalls s (k - 1))).1 = 200 * 2 ^ ((k - 1) % 4) := hc
  have hm : (k - 1) % 4 = 0 ∨ (k - 1) % 4 = 1 ∨ (k - 1) % 4 = 2 ∨ (k - 1) % 4 = 3 := by omega
  refine ⟨hv, ?_, ?_⟩
  · rw [hv]
    rcases hm with h0 | h0 | h0 | h0 <;> rw [h0] <;> norm_num
  · intro h4
    rw [hv, Nat.mod_eq_of_lt (by omega : k - 1 < 4)]
    have : k - 1 = 0 ∨ k - 1 = 1 ∨ k - 1 = 2 ∨ k - 1 = 3 := by omega
    rcases this with h0 | h0 | h0 | h0 <;> rw [h0] <;> norm_num

/-- Witness of C6 (amended): the fifth call from the start state. -/
theorem chain_kth_call_witness :
    start.chain = 200 ∧ 1 ≤ 5 ∧
    ((eatScoreChain (afterCalls start (5 - 1))).1 = 200 * 2 ^ ((5 - 1) % 4) ∧
     (eatScoreChain (afterCalls start (5 - 1))).1 ≤ 1600 ∧
     (5 ≤ 4 → (eatScoreChain (afterCalls start (5 - 1))).1 = min (200 * 2 ^ (5 - 1)) 1600)) :=
  ⟨by decide!, by decide, chain_kth_call start (by decide!) 5 (by decide)⟩

/-- C7 (counterexample): one capture in a first frightened period leaves the
chain at 400; `energize` starts a second period without touching it, and the
first capture of that period (the hero stands on the pink ghost) awards 400. -/
theorem first_capture_of_second_period_awards_400 :
    secondPeriod.chain = 400 ∧ secondPeriod.mode = .frightened ∧
    (checkCollisions (heroAt secondPeriod ⟨13 * TILE, 14 * TILE⟩)).score
      = secondPeriod.score + 400 ∧
    (checkCollisions (heroAt secondPeriod ⟨13 * TILE, 14 * TILE⟩)).ghosts.map
      (fun g => g.eyesOnly) = [true, true, false, false] := by
  decide!

theorem energize_chain (s : Game) : (energize s).chain = s.chain := rfl

theorem energize_score (s : Game) : (energize s).score = s.score := rfl

/-- The globals after one capture: the chain value is added to the score and
the chain advances. -/
theorem collideGhost_capture (s : Game) (g : Ghost) (hc : capturable s.hero.pos g = true) :
    collideGhost s g =
      ({ s with score := s.score + s.chain,
                chain := if s.chain * 2 > 1600 then 200 else s.chain * 2 }, captured g) := by
  unfold capturable at hc
  simp only [Bool.and_eq_true, Bool.not_eq_true'] at hc
  obtain ⟨hov, hf, he⟩ := hc
  unfold collideGhost
  simp [hov, hf, he, eatScoreChain, captured]

/-- C7 (amended): `energize` leaves the chain value as it is, and the first
capture after it awards that value: for every adversary within reach and not
retreating, the collision body run in the state `energize` left adds the chain
value held before `energize` to the score and marks the adversary retreating.
The award is 200 exactly when that chain value is 200. -/
theorem first_capture_after_energize (s : Game) (g : Ghost)
    (hg : g ∈ (energize s).ghosts) (hov : overlap g.pos s.hero.pos = true)
    (he : g.eyesOnly = false) :
    (energize s).chain = s.chain ∧
    (collideGhost (energize s) g).1.score = s.score + s.chain ∧
    (collideGhost (energize s) g).2 = captured g ∧
    ((collideGhost (energize s) g).1.score = s.score + 200 ↔ s.chain = 200) := by
  have hmem := hg
  rw [energize_ghosts] at hmem
  obtain ⟨g0, _, hg0⟩ := List.mem_map.1 hmem
  have hf : g.frightened = true := by rw [← hg0]
  have hc : capturable (energize s).hero.pos g = true := by
    unfold capturable
    rw [energize_hero, hov, hf, he]
    rfl
  rw [collideGhost_capture _ _ hc]
  refine ⟨rfl, rfl, rfl, ?_⟩
  show s.score + s.chain = s.score + 200 ↔ s.chain = 200
  constructor
  · intro h; omega
  · intro h; rw [h]

/-- Witness of C7 (amended): the hero on the pink ghost at the start state. -/
theorem first_capture_after_energize_witness :
    pinkFrightened ∈ (energize onPink).ghosts ∧
    overlap pinkFrightened.pos onPink.hero.pos = true ∧
    pinkFrightened.eyesOnly = false ∧
    ((energize onPink).chain = onPink.chain ∧
     (collideGhost (energize onPink) pinkFrightened).1.score = onPink.score + onPink.chain ∧
     (collideGhost (energize onPink) pinkFrightened).2 = captured pinkFrightened ∧
     ((collideGhost (energize onPink) pinkFrightened).1.score = onPink.score + 200 ↔
       onPink.chain = 200)) :=
  ⟨by decide!, by decide!, by decide!,
   first_capture_after_energize onPink pinkFrightened (by decide!) (by decide!) (by decide!)⟩

/-! ## Release from the house -/

theorem map_set_same {α β : Type} (f : α → β) :
    ∀ (l : List α) (i : Nat) (a b : α), l[i]? = some a → f b = f a →
      (l.set i b).map f = l.map f
  | [], _, _, _, h, _ => by simp at h
  | x :: l, 0, a, b, h, hf => by
    simp only [List.getElem?_cons_zero, Option.some.injEq] at h
    simp [List.set, hf, h]
  | x :: l, i + 1, a, b, h, hf => by
    simp only [List.getElem?_cons_succ] at h
    simp [List.set, map_set_same f l i a b h hf]

theorem reverseGhosts_house (s : Game) : houseFlags (reverseGhosts s) = houseFlags s := by
  simp [houseFlags, reverseGhosts, List.map_map, Function.comp_def]

theorem updateMode_house (s t : Game) (dt : ℚ) (h : updateMode s dt = some t) :
    houseFlags t = houseFlags s ∧ t.dotsEatenThisLevel = s.dotsEatenThisLevel := by
  unfold updateMode at h
  simp only [] at h
  split_ifs at h with h1
  · cases h; exact ⟨rfl, rfl⟩
  · split at h
    · cases h
    · split_ifs at h
      · split at h
        · cases h
        · cases h; exact ⟨reverseGhosts_house _, rfl⟩
      · cases h; exact ⟨rfl, rfl⟩

theorem energize_house (s : Game) : houseFlags (energize s) = houseFlags s := by
  simp [houseFlags, energize_ghosts, List.map_map, Function.comp_def]

theorem Hero.eat_house (s : Game) :
    houseFlags (Hero.eat s) = houseFlags s ∧
    (Hero.eat s).dotsEatenThisLevel = s.dotsEatenThisLevel := by
  unfold Hero.eat
  simp only []
  split_ifs <;> (try split) <;>
    first
      | exact ⟨rfl, rfl⟩
      | exact ⟨energize_house _, rfl⟩

theorem Ghost.update_inHouse (s : Game) (g : Ghost) (k : Fin 4) (dt : ℚ) :
    (Ghost.update s g k dt).inHouse = g.inHouse := by
  unfold Ghost.update Ghost.move
  simp only []
  split_ifs <;> rfl

theorem updateGhostAt_house (rnd : Nat → Fin 4) (dt : ℚ) (s : Game) (i : Nat) :
    houseFlags (updateGhostAt rnd dt s i) = houseFlags s ∧
    (updateGhostAt rnd dt s i).dotsEatenThisLevel = s.dotsEatenThisLevel := by
  unfold updateGhostAt
  split
  · exact ⟨rfl, rfl⟩
  · rename_i g hg
    exact ⟨map_set_same _ _ _ g _ hg (Ghost.update_inHouse _ _ _ _), rfl⟩

theorem updateGhosts_house (rnd : Nat → Fin 4) (dt : ℚ) (s : Game) :
    houseFlags (updateGhosts rnd dt s) = houseFlags s ∧
    (updateGhosts rnd dt s).dotsEatenThisLevel = s.dotsEatenThisLevel := by
  unfold updateGhosts
  generalize List.range s.ghosts.length = l
  induction l generalizing s with
  | nil => exact ⟨rfl, rfl⟩
  | cons i l ih =>
    rw [List.foldl_cons]
    obtain ⟨h1, h2⟩ := ih (updateGhostAt rnd dt s i)
    obtain ⟨h3, h4⟩ := updateGhostAt_house rnd dt s i
    exact ⟨h1.trans h3, h2.trans h4⟩

theorem applyElroy_house (s : Game) :
    houseFlags (applyElroy s) = houseFlags s ∧
    (applyElroy s).dotsEatenThisLevel = s.dotsEatenThisLevel := by
  unfold applyElroy houseFlags
  split
  · exact ⟨rfl, rfl⟩
  · rename_i red rest hgs
    refine ⟨?_, rfl⟩
    rw [hgs]
    simp only [List.map_cons]
    split_ifs <;> rfl

theorem updateFruit_house (s : Game) (dt : ℚ) :
    houseFlags (updateFruit s dt) = houseFlags s ∧
    (updateFruit s dt).dotsEatenThisLevel = s.dotsEatenThisLevel := by
  unfold updateFruit
  simp only []
  split_ifs <;> exact ⟨rfl, rfl⟩

theorem loseLife_dots (s : Game) :
    (loseLife s).dotsEatenThisLevel = s.dotsEatenThisLevel := by
  unfold loseLife
  simp only []
  split_ifs <;> rfl

theorem collideGhost_house (s : Game) (g : Ghost) :
    (collideGhost s g).2.inHouse = g.inHouse ∧
    (collideGhost s g).1.dotsEatenThisLevel = s.dotsEatenThisLevel := by
  unfold collideGhost
  simp only []
  split_ifs <;> first | exact ⟨rfl, rfl⟩ | exact ⟨rfl, loseLife_dots s⟩

theorem collideList_house :
    ∀ (gs : List Ghost) (s : Game),
      ((collideList s gs).2.map fun g => g.inHouse) = gs.map (fun g => g.inHouse) ∧
      (collideList s gs).1.dotsEatenThisLevel = s.dotsEatenThisLevel
  | [], s => ⟨rfl, rfl⟩
  | g :: gs, s => by
    obtain ⟨h1, h2⟩ := collideGhost_house s g
    obtain ⟨h3, h4⟩ := collideList_house gs (collideGhost s g).1
    simp only [collideList, List.map_cons, h1, h3]
    exact ⟨trivial, h4.trans h2⟩

theorem checkCollisions_house (s : Game) :
    houseFlags (checkCollisions s) = houseFlags s ∧
    (checkCollisions s).dotsEatenThisLevel = s.dotsEatenThisLevel := by
  obtain ⟨h1, h2⟩ := collideList_house s.ghosts s
  exact ⟨h1, h2⟩

theorem runCallback_house (cb : Callback) (s t : Game) (h : runCallback cb s = some t) :
    houseFlags t = houseFlags s ∧ t.dotsEatenThisLevel = s.dotsEatenThisLevel := by
  cases cb with
  | frightenedExpiry =>
    simp only [runCallback, frightenedExpiry] at h
    split at h
    · cases h
    · cases h
      refine ⟨?_, rfl⟩
      simp [houseFlags, List.map_map, Function.comp_def]
  | lifeLostReset =>
    cases h
    exact ⟨placeGhosts_map (fun g => g.inHouse) (fun _ _ => rfl) _ _, rfl⟩
  | gameOverRestart =>
    cases h
    exact ⟨placeGhosts_map (fun g => g.inHouse) (fun _ _ => rfl) _ _, rfl⟩

theorem foldlM_runCallback_house :
    ∀ (l : List Timer) (s t : Game), l.foldlM (fun g tm => runCallback tm.cb g) s = some t →
      houseFlags t = houseFlags s ∧ t.dotsEatenThisLevel = s.dotsEatenThisLevel
  | [], s, t, h => by
    cases h; exact ⟨rfl, rfl⟩
  | tm :: l, s, t, h => by
    rw [List.foldlM_cons] at h
    cases hr : runCallback tm.cb s with
    | none => rw [hr] at h; cases h
    | some u =>
      rw [hr] at h
      obtain ⟨h1, h2⟩ := runCallback_house tm.cb s u hr
      obtain ⟨h3, h4⟩ := foldlM_runCallback_house l u t h
      exact ⟨h3.trans h1, h4.trans h2⟩

theorem advance_house (s t : Game) (ms : Nat) (h : advance s ms = some t) :
    houseFlags t = houseFlags s ∧ t.dotsEatenThisLevel = s.dotsEatenThisLevel := by
  simp only [advance] at h
  have h2 := foldlM_runCallback_house _ _ _ h
  exact h2

theorem release_one (d t : Nat) (g : Ghost) (hg : g.inHouse = decide (d < max t 1)) :
    (if (g.inHouse && decide (t ≤ d + 1)) = true then { g with inHouse := false } else g).inHouse
      = decide (d + 1 < max t 1) := by
  by_cases h1 : t ≤ d + 1
  · have hn : ¬ (d + 1 < max t 1) := by
      rcases le_total t 1 with h | h
      · rw [max_eq_right h]; omega
      · rw [max_eq_left h]; omega
    cases hh : g.inHouse
    · simp [hh, hn]
    · simp [hh, h1, hn]
  · have hp : d + 1 < max t 1 := by
      have : 1 ≤ t := by omega
      rw [max_eq_left this]; omega
    have hp0 : d < max t 1 := by omega
    simp [h1, hp, hg, hp0]

theorem confinedAt_succ (d : Nat) (gs : List Ghost)
    (h : (gs.map fun g => g.inHouse) = confinedAt d) :
    ((release (d + 1) 0 gs).map fun g => g.inHouse) = confinedAt (d + 1) := by
  match gs, h with
  | [], h => simp [confinedAt, thresholds] at h
  | [_], h => simp [confinedAt, thresholds] at h
  | [_, _], h => simp [confinedAt, thresholds] at h
  | [_, _, _], h => simp [confinedAt, thresholds] at h
  | _ :: _ :: _ :: _ :: _ :: _, h => simp [confinedAt, thresholds] at h
  | [a, b, c, e], h =>
    simp only [confinedAt, thresholds, List.map_cons, List.map_nil, List.cons.injEq,
      and_true] at h
    obtain ⟨ha, hb, hc, he⟩ := h
    simp only [release, thresholds, List.map_cons, List.map_nil, confinedAt,
      List.getElem?_cons_zero, List.getElem?_cons_succ]
    rw [release_one d 0 a ha, release_one d 20 b hb, release_one d 40 c hc,
      release_one d 60 e he]

theorem onDotEaten_dots (s : Game) :
    (onDotEaten s).dotsEatenThisLevel = s.dotsEatenThisLevel + 1 := by
  unfold onDotEaten spawnFruit
  simp only []
  split_ifs <;> rfl

theorem onDotEaten_house (s : Game) (h : houseFlags s = confinedAt s.dotsEatenThisLevel) :
    houseFlags (onDotEaten s) = confinedAt (onDotEaten s).dotsEatenThisLevel := by
  rw [onDotEaten_dots]
  unfold houseFlags
  rw [onDotEaten_ghosts]
  exact confinedAt_succ _ _ h

theorem nextLevel_ghosts (s : Game) :
    (nextLevel s).ghosts = s.ghosts.map fun g =>
      { g with eyesOnly := false, frightened := false, inHouse := true, baseSpeed := 11 / 2 } :=
  rfl

theorem nextLevel_dots (s : Game) : (nextLevel s).dotsEatenThisLevel = 0 := rfl

theorem nextLevel_house (s : Game) (h : houseFlags s = confinedAt s.dotsEatenThisLevel) :
    houseFlags (nextLevel s) = confinedAt (nextLevel s).dotsEatenThisLevel := by
  have hlen : s.ghosts.length = 4 := by
    have := congrArg List.length h
    rw [houseFlags, List.length_map] at this
    rw [this]; rfl
  rw [nextLevel_dots]
  unfold houseFlags
  rw [nextLevel_ghosts, List.map_map]
  have hc : ((fun g : Ghost => g.inHouse) ∘ fun g : Ghost =>
      { g with eyesOnly := false, frightened := false, inHouse := true, baseSpeed := 11 / 2 })
      = Function.const Ghost true := rfl
  rw [hc, List.map_const, hlen]
  rfl

theorem eatHook_house (s : Game) (h : houseFlags s = confinedAt s.dotsEatenThisLevel) :
    houseFlags (eatHook s) = confinedAt (eatHook s).dotsEatenThisLevel ∧
    ((eatHook s).dotsEatenThisLevel = s.dotsEatenThisLevel ∨
     (eatHook s).dotsEatenThisLevel = s.dotsEatenThisLevel + 1 ∨
     (eatHook s).dotsEatenThisLevel = 0) := by
  obtain ⟨h1, h2⟩ := Hero.eat_house s
  have he : houseFlags (Hero.eat s) = confinedAt (Hero.eat s).dotsEatenThisLevel := by
    rw [h1, h2]; exact h
  have hd := onDotEaten_house _ he
  have hdd := onDotEaten_dots (Hero.eat s)
  unfold eatHook
  simp only []
  split_ifs
  · exact ⟨nextLevel_house _ hd, Or.inr (Or.inr rfl)⟩
  · exact ⟨hd, Or.inr (Or.inl (by rw [hdd, h2]))⟩
  · exact ⟨nextLevel_house _ he, Or.inr (Or.inr rfl)⟩
  · exact ⟨he, Or.inl h2⟩

theorem tick_house (rnd : Nat → Fin 4) (s t : Game)
    (h : houseFlags s = confinedAt s.dotsEatenThisLevel) (ht : tick rnd s = some t) :
    houseFlags t = confinedAt t.dotsEatenThisLevel ∧
    (t.dotsEatenThisLevel = s.dotsEatenThisLevel ∨
     t.dotsEatenThisLevel = s.dotsEatenThisLevel + 1 ∨ t.dotsEatenThisLevel = 0) := by
  unfold tick at ht
  cases hu : updateMode s STEP with
  | none => rw [hu] at ht; cases ht
  | some s1 =>
    rw [hu] at ht
    simp only [Option.map_some', Option.some.injEq] at ht
    obtain ⟨a1, a2⟩ := updateMode_house s s1 STEP hu
    have h1 : houseFlags (Hero.move s1 STEP)
        = confinedAt (Hero.move s1 STEP).dotsEatenThisLevel := by
      show houseFlags s1 = confinedAt s1.dotsEatenThisLevel
      rw [a1, a2]; exact h
    obtain ⟨b1, b2⟩ := eatHook_house _ h1
    have b2' : (Hero.update s1 STEP).dotsEatenThisLevel = s.dotsEatenThisLevel ∨
        (Hero.update s1 STEP).dotsEatenThisLevel = s.dotsEatenThisLevel + 1 ∨
        (Hero.update s1 STEP).dotsEatenThisLevel = 0 := by
      have : (Hero.move s1 STEP).dotsEatenThisLevel = s.dotsEatenThisLevel := a2
      rw [this] at b2
      exact b2
    have b1' : houseFlags (Hero.update s1 STEP)
        = confinedAt (Hero.update s1 STEP).dotsEatenThisLevel := b1
    generalize Hero.update s1 STEP = s2 at ht b1' b2'
    obtain ⟨c1, c2⟩ := updateGhosts_house rnd STEP s2
    obtain ⟨d1, d2⟩ := applyElroy_house (updateGhosts rnd STEP s2)
    obtain ⟨e1, e2⟩ := updateFruit_house (applyElroy (updateGhosts rnd STEP s2)) STEP
    obtain ⟨f1, f2⟩ :=
      checkCollisions_house (updateFruit (applyElroy (updateGhosts rnd STEP s2)) STEP)
    rw [← ht]
    have hd : (checkCollisions (updateFruit (applyElroy (updateGhosts rnd STEP s2))
        STEP)).dotsEatenThisLevel = s2.dotsEatenThisLevel := by
      rw [f2, e2, d2, c2]
    refine ⟨?_, ?_⟩
    · rw [f1, e1, d1, c1, hd]; exact b1'
    · rw [hd]; exact b2'

theorem step_house (s t : Game) (e : Event)
    (h : houseFlags s = confinedAt s.dotsEatenThisLevel) (hst : step s e = some t) :
    houseFlags t = confinedAt t.dotsEatenThisLevel ∧
    (t.dotsEatenThisLevel = s.dotsEatenThisLevel ∨
     t.dotsEatenThisLevel = s.dotsEatenThisLevel + 1 ∨ t.dotsEatenThisLevel = 0) := by
  cases e with
  | tick rnd => exact tick_house rnd s t h hst
  | key d =>
    simp only [step, Option.some.injEq] at hst
    rw [← hst]
    split_ifs
    · exact ⟨h, Or.inl rfl⟩
    · exact ⟨h, Or.inl rfl⟩
  | wait ms =>
    obtain ⟨h1, h2⟩ := advance_house s t ms hst
    exact ⟨by rw [h1, h2]; exact h, Or.inl h2⟩

theorem reachable_house (s : Game) (h : Reachable s) :
    houseFlags s = confinedAt s.dotsEatenThisLevel := by
  induction h with
  | start => decide
  | step e _ hst ih => exact (step_house _ _ e ih hst).1

/-- C8 (counterexample): at level start the count is 0, which is not below the
threshold 0 of the first adversary, and that adversary is confined. -/
theorem first_ghost_confined_at_count_zero :
    Reachable start ∧
    ∃ g t, start.ghosts[0]? = some g ∧ thresholds[0]? = some t ∧ g.inHouse = true ∧
      ¬ (start.dotsEatenThisLevel < t) :=
  ⟨Reachable.start, Ghost.new .red (14 * TILE) (11 * TILE), 0, by decide!, by decide,
    by decide, by decide⟩

/-- C8 (amended): in every reachable state the confined flags of the four
adversaries are exactly those of the eaten-pellet count of the level: adversary
`i` with threshold `t_i` in [0, 20, 40, 60] is confined exactly while the count
is below `max(t_i, 1)` (the release test runs only in `onDotEaten`, after the
count was incremented, so the adversary with threshold 0 stays confined until
the first pellet of the level is eaten). Every event leaves the count as it is,
adds one to it, or resets it to 0 (`nextLevel`), so a flag becomes false once,
when the count first reaches `max(t_i, 1)`, and only the reset of the count by
`nextLevel` sets it back to true. -/
theorem release_from_confinement (s : Game) (h : Reachable s) :
    houseFlags s = thresholds.map (fun t => decide (s.dotsEatenThisLevel < max t 1)) ∧
    ∀ (e : Event) (t : Game), step s e = some t →
      (t.dotsEatenThisLevel = s.dotsEatenThisLevel ∨
       t.dotsEatenThisLevel = s.dotsEatenThisLevel + 1 ∨ t.dotsEatenThisLevel = 0) :=
  ⟨reachable_house s h, fun e t hst => (step_house s t e (reachable_house s h) hst).2⟩

/-- Witness of C8 (amended): the start state. -/
theorem release_from_confinement_witness :
    Reachable start ∧
    (houseFlags start
        = thresholds.map (fun t => decide (start.dotsEatenThisLevel < max t 1)) ∧
     ∀ (e : Event) (t : Game), step start e = some t →
      (t.dotsEatenThisLevel = start.dotsEatenThisLevel ∨
       t.dotsEatenThisLevel = start.dotsEatenThisLevel + 1 ∨ t.dotsEatenThisLevel = 0)) :=
  ⟨Reachable.start, release_from_confinement start Reachable.start⟩

/-! ## Captures in one collision pass -/

theorem collideGhost_award (s : Game) (g : Ghost) (hc : capturable s.hero.pos g = true) :
    collideGhost s g = (award s, captured g) :=
  collideGhost_capture s g hc

theorem collideGhost_harmless (s : Game) (g : Ghost)
    (hh : overlap g.pos s.hero.pos = true → g.eyesOnly = true) :
    collideGhost s g = (s, g) := by
  unfold collideGhost
  cases hov : overlap g.pos s.hero.pos
  · simp
  · have he := hh hov
    simp [he]

theorem award_iterate_hero (k : Nat) : ∀ s : Game, (award^[k] s).hero = s.hero := by
  induction k with
  | zero => intro s; rfl
  | succ k ih => intro s; rw [Function.iterate_succ_apply, ih]; rfl

/-- A collision pass in which every ghost within reach is capturable or
retreating: each capturable ghost is captured, the globals change by one award
per capture, and `loseLife` is not called. -/
theorem collideList_captures :
    ∀ (gs : List Ghost) (s : Game),
      (∀ g ∈ gs, capturable s.hero.pos g = false → overlap g.pos s.hero.pos = true →
        g.eyesOnly = true) →
      collideList s gs =
        (award^[(gs.filter (capturable s.hero.pos)).length] s,
         gs.map fun g => if capturable s.hero.pos g then captured g else g)
  | [], s, _ => rfl
  | g :: gs, s, h => by
    have hrest : ∀ x ∈ gs, capturable s.hero.pos x = false →
        overlap x.pos s.hero.pos = true → x.eyesOnly = true :=
      fun x hx => h x (List.mem_cons_of_mem _ hx)
    cases hc : capturable s.hero.pos g
    · have h1 := collideGhost_harmless s g (h g (List.mem_cons_self _ _) hc)
      have ih := collideList_captures gs s hrest
      simp only [collideList, h1, ih, List.filter_cons, hc, List.map_cons]
      simp
    · have h1 := collideGhost_award s g hc
      have ih := collideList_captures gs (award s) hrest
      simp only [collideList, h1, ih, List.filter_cons, hc, List.map_cons, if_true,
        List.length_cons, Function.iterate_succ_apply]
      rfl

/-- C10 (counterexample): with the chain at 400 (the red ghost was captured
earlier in the period) the three captures of one pass add 400 + 800 + 1600 =
2800; and with a fourth adversary within reach that is neither frightened nor
retreating, the pass costs a life. In both states the mode is frightened, the
hero is not invincible and exactly three adversaries are capturable. -/
theorem three_captures_not_always_1400 :
    (threeInReach.mode = .frightened ∧ threeInReach.hero.invincible = false ∧
      (threeInReach.ghosts.filter (capturable threeInReach.hero.pos)).length = 3 ∧
      threeInReach.chain = 400 ∧
      (checkCollisions threeInReach).score = threeInReach.score + 2800) ∧
    (fourthInContact.mode = .frightened ∧ fourthInContact.hero.invincible = false ∧
      (fourthInContact.ghosts.filter (capturable fourthInContact.hero.pos)).length = 3 ∧
      (checkCollisions fourthInContact).lives = fourthInContact.lives - 1) := by
  decide!

/-- C10 (amended): for every state in which the chain value is 200, exactly
three adversaries are frightened, not retreating and within the proximity
threshold of the hero, and every other adversary within the threshold is
retreating, one `checkCollisions` pass increases the score by 200 + 400 + 800 =
1400, turns exactly those three into retreating ones (`eyesOnly = true`,
`frightened = false`), loses no life and leaves the chain at 1600. -/
theorem three_captures_score_1400 (s : Game) (hchain : s.chain = 200)
    (hthree : (s.ghosts.filter (capturable s.hero.pos)).length = 3)
    (hrest : ∀ g ∈ s.ghosts, capturable s.hero.pos g = false →
      overlap g.pos s.hero.pos = true → g.eyesOnly = true) :
    (checkCollisions s).score = s.score + 1400 ∧
    (checkCollisions s).ghosts =
      s.ghosts.map (fun g => if capturable s.hero.pos g then captured g else g) ∧
    (∀ g ∈ s.ghosts, capturable s.hero.pos g = true →
      (captured g).eyesOnly = true ∧ (captured g).frightened = false) ∧
    (checkCollisions s).lives = s.lives ∧ (checkCollisions s).chain = 1600 := by
  have h := collideList_captures s.ghosts s hrest
  rw [hthree] at h
  have hs : checkCollisions s = { award^[3] s with
      ghosts := s.ghosts.map (fun g => if capturable s.hero.pos g then captured g else g) } := by
    unfold checkCollisions
    rw [h]
  rw [hs]
  have h3 : award^[3] s = award (award (award s)) := rfl
  refine ⟨?_, rfl, fun _ _ _ => ⟨rfl, rfl⟩, ?_, ?_⟩
  · show (award^[3] s).score = s.score + 1400
    rw [h3]
    simp only [award, hchain]
    norm_num
    omega
  · show (award^[3] s).lives = s.lives
    rw [h3]
    rfl
  · show (award^[3] s).chain = 1600
    rw [h3]
    simp only [award, hchain]
    norm_num

/-- Witness of C10 (amended): frightened mode at the start of level 1 with the
three house ghosts on the spot of the hero. -/
theorem three_captures_score_1400_witness :
    threeOnHero.chain = 200 ∧
    (threeOnHero.ghosts.filter (capturable threeOnHero.hero.pos)).length = 3 ∧
    ((checkCollisions threeOnHero).score = threeOnHero.score + 1400 ∧
     (checkCollisions threeOnHero).ghosts =
       threeOnHero.ghosts.map
         (fun g => if capturable threeOnHero.hero.pos g then captured g else g) ∧
     (∀ g ∈ threeOnHero.ghosts, capturable threeOnHero.hero.pos g = true →
       (captured g).eyesOnly = true ∧ (captured g).frightened = false) ∧
     (checkCollisions threeOnHero).lives = threeOnHero.lives ∧
     (checkCollisions threeOnHero).chain = 1600) :=
  ⟨by decide!, by decide!,
   three_captures_score_1400 threeOnHero (by decide!) (by decide!) (by decide!)⟩

/-! ## Clearing the pellets of a level -/

theorem mem_cellsOf (v : Nat) (m : Grid) (rc : Int × Int) :
    rc ∈ cellsOf v m ↔ cellAt m rc.1 rc.2 = some v := by
  unfold cellsOf
  simp only [List.mem_flatMap, List.mem_range, List.mem_map, List.mem_filter, beq_iff_eq]
  constructor
  · rintro ⟨r, _, c, ⟨_, hc⟩, rfl⟩
    exact hc
  · intro h
    obtain ⟨r, c⟩ := rc
    have h0 : ¬ (r < 0 ∨ c < 0) := by
      intro hn
      simp [cellAt, hn] at h
    have hr : 0 ≤ r := by omega
    have hc : 0 ≤ c := by omega
    simp only [cellAt, h0, if_false] at h
    cases hrow : m[r.toNat]? with
    | none => simp [hrow] at h
    | some row =>
      simp only [hrow, Option.some_bind] at h
      have h1 : r.toNat < m.length := (List.getElem?_eq_some.1 hrow).1
      have h2 : c.toNat < row.length := (List.getElem?_eq_some.1 h).1
      refine ⟨r.toNat, h1, c.toNat, ⟨?_, ?_⟩, ?_⟩
      · simpa [hrow] using h2
      · simp only [Int.toNat_of_nonneg hr, Int.toNat_of_nonneg hc, cellAt, h0, if_false, hrow,
          Option.some_bind, h]
      · simp [Int.toNat_of_nonneg hr, Int.toNat_of_nonneg hc]

theorem nodup_cellsOf (v : Nat) (m : Grid) : (cellsOf v m).Nodup := by
  unfold cellsOf
  rw [List.nodup_flatMap]
  constructor
  · intro r _
    apply List.Nodup.map
    · intro a b hab
      simpa using congrArg Prod.snd hab
    · exact (List.nodup_range _).filter _
  · apply (List.nodup_range m.length).imp
    intro a b hab
    simp only [Function.onFun, List.disjoint_left, List.mem_map, List.mem_filter]
    rintro x ⟨c, _, rfl⟩ ⟨c2, _, h2⟩
    have := congrArg Prod.fst h2
    simp only [Nat.cast_inj] at this
    exact hab this.symm

theorem floor_tile_mul (r : Int) : Rat.floor ((r : ℚ) * TILE / TILE) = r := by
  have h8 : ((TILE : Nat) : ℚ) ≠ 0 := by norm_num [TILE]
  rw [mul_div_assoc, div_self h8, mul_one]
  exact @Int.floor_intCast ℚ _ _ r

theorem tile_center (rc : Int × Int) :
    tile ⟨(rc.2 : ℚ) * TILE, (rc.1 : ℚ) * TILE⟩ = rc := by
  unfold tile
  simp only [floor_tile_mul]

theorem cellAt_setCell_other (m : Grid) (r c r1 c1 : Int) (v : Nat)
    (hne : (r1, c1) ≠ (r, c)) : cellAt (setCell m r c v) r1 c1 = cellAt m r1 c1 := by
  unfold cellAt setCell
  by_cases hneg : r1 < 0 ∨ c1 < 0
  · simp [hneg]
  · simp only [hneg, if_false]
    by_cases hrc : r < 0 ∨ c < 0
    · simp [hrc]
    · simp only [hrc, if_false]
      rw [List.getElem?_modify]
      cases hrow : m[r1.toNat]? with
      | none => simp
      | some row =>
        by_cases hr : r.toNat = r1.toNat
        · simp only [hr, if_true, Option.map_eq_map, Option.map_some', Option.some_bind]
          rw [List.getElem?_set]
          have hc : ¬ c.toNat = c1.toNat := by
            intro hc
            apply hne
            have : r1 = r := by omega
            have : c1 = c := by omega
            simp [*]
          simp [hc]
        · simp [hr]

theorem onDotEaten_score (s : Game) : (onDotEaten s).score = s.score := by
  unfold onDotEaten spawnFruit
  simp only []
  split_ifs <;> rfl

theorem onDotEaten_level (s : Game) : (onDotEaten s).level = s.level := by
  unfold onDotEaten spawnFruit
  simp only []
  split_ifs <;> rfl

theorem onDotEaten_fruit (s : Game)
    (h : s.fruitActive = true → s.fruitPos = some (17, 13)) :
    (onDotEaten s).fruitActive = true → (onDotEaten s).fruitPos = some (17, 13) := by
  unfold onDotEaten spawnFruit
  simp only []
  split_ifs <;> first | exact h | exact fun _ => rfl

/-- The hooked `eat` on a pellet tile that is not the fruit tile, other pellets
remaining: ten points, one pellet less, the cell emptied, no level change. -/
theorem eatAt_pellet (s : Game) (rc : Int × Int)
    (hcell : cellAt s.map rc.1 rc.2 = some 2)
    (hfruit : s.fruitActive = true → s.fruitPos = some (17, 13))
    (hrc : rc ≠ (17, 13)) (hrem : 1 < s.pelletsRemaining) :
    (eatAt s rc).score = s.score + 10 ∧
    (eatAt s rc).pelletsRemaining = s.pelletsRemaining - 1 ∧
    (eatAt s rc).level = s.level ∧
    (eatAt s rc).map = setCell s.map rc.1 rc.2 0 ∧
    ((eatAt s rc).fruitActive = true → (eatAt s rc).fruitPos = some (17, 13)) := by
  have hnf : (s.fruitActive && s.fruitPos == some rc) = false := by
    cases hfa : s.fruitActive
    · rfl
    · rw [hfruit hfa]
      simp only [Bool.true_and, beq_eq_false_iff_ne, ne_eq, Option.some.injEq]
      exact fun h => hrc h.symm
  have heat : Hero.eat (heroAt s ⟨(rc.2 : ℚ) * TILE, (rc.1 : ℚ) * TILE⟩) =
      { heroAt s ⟨(rc.2 : ℚ) * TILE, (rc.1 : ℚ) * TILE⟩ with
        map := setCell s.map rc.1 rc.2 0, pelletsRemaining := s.pelletsRemaining - 1,
        score := s.score + 10 } := by
    unfold Hero.eat
    simp only [heroAt, tile_center, hcell, if_true, hnf]
    simp
  unfold eatAt eatHook
  simp only [heat]
  have hlt : s.pelletsRemaining - 1 < (heroAt s ⟨(rc.2 : ℚ) * TILE, (rc.1 : ℚ) * TILE⟩).pelletsRemaining := by
    show s.pelletsRemaining - 1 < s.pelletsRemaining
    omega
  simp only [hlt, if_true, onDotEaten_pelletsRemaining]
  have hpos : ¬ (s.pelletsRemaining - 1 ≤ 0) := by omega
  simp only [hpos, if_false]
  refine ⟨?_, ?_, ?_, ?_, ?_⟩
  · rw [onDotEaten_score]
  · rw [onDotEaten_pelletsRemaining]
  · rw [onDotEaten_level]; rfl
  · rw [onDotEaten_map]
  · exact onDotEaten_fruit _ hfruit

theorem eatAll_pellets :
    ∀ (cs : List (Int × Int)) (s : Game), cs.Nodup →
      (∀ rc ∈ cs, cellAt s.map rc.1 rc.2 = some 2) →
      (s.fruitActive = true → s.fruitPos = some (17, 13)) →
      (17, 13) ∉ cs → (cs.length : Int) < s.pelletsRemaining →
      (eatAll s cs).score = s.score + 10 * cs.length ∧
      (eatAll s cs).pelletsRemaining = s.pelletsRemaining - cs.length ∧
      (eatAll s cs).level = s.level
  | [], s, _, _, _, _, _ => by simp [eatAll]
  | rc :: cs, s, hnd, hcells, hfruit, hnot, hlen => by
    have hrc : rc ≠ (17, 13) := fun h => hnot (h ▸ List.mem_cons_self _ _)
    have hlen1 : (cs.length : Int) + 1 < s.pelletsRemaining := by
      simpa using hlen
    obtain ⟨e1, e2, e3, e4, e5⟩ := eatAt_pellet s rc (hcells rc (List.mem_cons_self _ _))
      hfruit hrc (by omega)
    have hnd2 := List.nodup_cons.1 hnd
    have hcells2 : ∀ x ∈ cs, cellAt (eatAt s rc).map x.1 x.2 = some 2 := by
      intro x hx
      rw [e4, cellAt_setCell_other _ _ _ _ _ _ (fun h => hnd2.1 (by
        have : x = rc := Prod.ext (congrArg Prod.fst h) (congrArg Prod.snd h)
        exact this ▸ hx))]
      exact hcells x (List.mem_cons_of_mem _ hx)
    obtain ⟨f1, f2, f3⟩ := eatAll_pellets cs (eatAt s rc) hnd2.2 hcells2 e5
      (fun h => hnot (List.mem_cons_of_mem _ h)) (by rw [e2]; omega)
    have hfold : eatAll s (rc :: cs) = eatAll (eatAt s rc) cs := rfl
    rw [hfold, f1, f2, f3, e1, e2, e3]
    refine ⟨?_, ?_, rfl⟩
    · simp only [List.length_cons]; push_cast; ring
    · simp only [List.length_cons]; push_cast; ring

/-- C9 (counterexample): a level with 244 pellet cells, 4 power-item cells,
`pelletsRemaining = 248` as `placeDotsAndEnergizers` counts them, and score 0.
After the hero ate every pellet cell the score is 2440, but `pelletsRemaining`
is 4, not 0, and the level is still 1: `nextLevel` was not called. -/
theorem level_not_cleared_by_pellets_alone :
    (cellsOf 2 smallLevel.map).length = 244 ∧ (cellsOf 3 smallLevel.map).length = 4 ∧
    smallLevel.score = 0 ∧ smallLevel.pelletsRemaining = 248 ∧ smallLevel.level = 1 ∧
    (eatAll smallLevel (cellsOf 2 smallLevel.map)).score = 2440 ∧
    (eatAll smallLevel (cellsOf 2 smallLevel.map)).pelletsRemaining = 4 ∧
    (eatAll smallLevel (cellsOf 2 smallLevel.map)).level = 1 := by
  decide!

/-- C9 (amended): for a level whose map holds 244 pellet cells and 4 power-item
cells, with `pelletsRemaining = 248` (pellets and power items are counted
together) and a score of 0, after the hero ate every pellet cell once, in any
order, none of the power-item cells and no fruit, the score is 244 * 10 = 2440,
`pelletsRemaining` is 4 and the level is unchanged: `nextLevel` runs only once
the power items are eaten as well. -/
theorem level_clear_scenario (s : Game) (cs : List (Int × Int))
    (hcs : cs.Perm (cellsOf 2 s.map))
    (h244 : (cellsOf 2 s.map).length = 244) (h4 : (cellsOf 3 s.map).length = 4)
    (hrem : s.pelletsRemaining = 248) (hscore : s.score = 0)
    (hfruit : s.fruitActive = false) (hspot : cellAt s.map 17 13 ≠ some 2) :
    (eatAll s cs).score = 2440 ∧ (eatAll s cs).pelletsRemaining = 4 ∧
    (eatAll s cs).level = s.level := by
  have hlen : cs.length = 244 := by rw [hcs.length_eq, h244]
  have hnd : cs.Nodup := (hcs.nodup_iff).2 (nodup_cellsOf 2 s.map)
  have hcells : ∀ rc ∈ cs, cellAt s.map rc.1 rc.2 = some 2 :=
    fun rc hrc => (mem_cellsOf 2 s.map rc).1 ((hcs.mem_iff).1 hrc)
  have hnot : ((17, 13) : Int × Int) ∉ cs := fun h => hspot (hcells _ h)
  obtain ⟨h1, h2, h3⟩ := eatAll_pellets cs s hnd hcells
    (fun h => by rw [hfruit] at h; cases h) hnot (by rw [hlen, hrem]; decide)
  rw [hlen] at h1 h2
  refine ⟨?_, ?_, h3⟩
  · rw [h1, hscore]; rfl
  · rw [h2, hrem]; rfl

/-- Witness of C9 (amended): the level `smallLevel`. -/
theorem level_clear_scenario_witness :
    (cellsOf 2 smallLevel.map).Perm (cellsOf 2 smallLevel.map) ∧
    (cellsOf 2 smallLevel.map).length = 244 ∧ (cellsOf 3 smallLevel.map).length = 4 ∧
    smallLevel.pelletsRemaining = 248 ∧ smallLevel.score = 0 ∧
    smallLevel.fruitActive = false ∧ cellAt smallLevel.map 17 13 ≠ some 2 ∧
    ((eatAll smallLevel (cellsOf 2 smallLevel.map)).score = 2440 ∧
     (eatAll smallLevel (cellsOf 2 smallLevel.map)).pelletsRemaining = 4 ∧
     (eatAll smallLevel (cellsOf 2 smallLevel.map)).level = smallLevel.level) :=
  ⟨List.Perm.refl _, by decide!, by decide!, by decide!, by decide!, by decide!, by decide!,
   level_clear_scenario smallLevel (cellsOf 2 smallLevel.map) (List.Perm.refl _)
     (by decide!) (by decide!) (by decide!) (by decide!) (by decide!) (by decide!)⟩

/-! ## Pellet conservation on the paths other than the restart -/

theorem generateMap_count (lvl : Int) : (generateMap lvl).2 = 514 := by
  unfold generateMap
  simp only []
  split_ifs <;> decide

theorem Hero.eat_pelletsRemaining (s : Game) :
    (Hero.eat s).dotsEatenThisLevel = s.dotsEatenThisLevel ∧
    ((Hero.eat s).pelletsRemaining = s.pelletsRemaining ∨
     (Hero.eat s).pelletsRemaining = s.pelletsRemaining - 1) := by
  unfold Hero.eat
  simp only []
  split_ifs <;> (try split) <;>
    first
      | exact ⟨rfl, Or.inl rfl⟩
      | exact ⟨rfl, Or.inr rfl⟩

/-- On the paths other than the restart of `gameOver` the pellets are conserved:
the hooked `eat`, with `onDotEaten` and `nextLevel`, keeps
`dotsEatenThisLevel + pelletsRemaining` at the 514 that `generateMap` sets. -/
theorem eatHook_conserves (s : Game)
    (h : (s.dotsEatenThisLevel : Int) + s.pelletsRemaining = 514) :
    ((eatHook s).dotsEatenThisLevel : Int) + (eatHook s).pelletsRemaining
      = (generateMap (eatHook s).level).2 := by
  rw [generateMap_count]
  obtain ⟨hd, hp⟩ := Hero.eat_pelletsRemaining s
  have hn : ∀ t : Game, ((nextLevel t).dotsEatenThisLevel : Int) + (nextLevel t).pelletsRemaining
      = 514 := by
    intro t
    show ((0 : Nat) : Int) + (generateMap (t.level + 1)).2 = 514
    rw [generateMap_count]; rfl
  unfold eatHook
  simp only []
  split_ifs with h1 h2 h2
  · exact hn _
  · rw [onDotEaten_dots, onDotEaten_pelletsRemaining, hd]
    push_cast
    omega
  · exact hn _
  · rw [hd]
    omega

/-! ## Losing the last life -/

/-- C11 (counterexample): with `lives = 1`, level 2 and score 120, the pass of
`checkCollisions` in which the red ghost touches the hero returns with
`lives = 3`, `level = 1` and `score = 0`: `gameOver` has reset them inside
`loseLife`, while both pauses are still pending and the clock has not moved. -/
theorem last_life_reset_is_immediate :
    lastLifeContact.lives = 1 ∧ lastLifeContact.hero.invincible = false ∧
    (checkCollisions lastLifeContact).lives = 3 ∧
    (checkCollisions lastLifeContact).level = 1 ∧
    (checkCollisions lastLifeContact).score = 0 ∧
    (checkCollisions lastLifeContact).clock = lastLifeContact.clock ∧
    (checkCollisions lastLifeContact).timers =
      [⟨1300, .lifeLostReset⟩, ⟨1000, .gameOverRestart⟩] := by
  decide!

theorem loseLife_last (s : Game) (hl : s.lives = 1) :
    loseLife s = gameOver (setTimeout
      { s with lives := 0, hero := { s.hero with invincible := true } } .lifeLostReset 1300) := by
  unfold loseLife
  simp [hl, setTimeout]

theorem collideGhost_fatal (s : Game) (g : Ghost) (hi : s.hero.invincible = false)
    (hov : overlap g.pos s.hero.pos = true) (hf : g.frightened = false)
    (he : g.eyesOnly = false) : collideGhost s g = (loseLife s, g) := by
  unfold collideGhost
  simp [hi, hov, hf, he]

/-- C11 (amended): with `lives = 1` and the hero not invincible, a collision
with a non-frightened, non-retreating adversary calls `loseLife`, which
decrements `lives` to 0 and calls `gameOver` in the same step: when the step
returns `lives`, `level` and `score` already hold 3, 1 and 0 (and the chain
200), the hero is invincible and the map is untouched. What waits for the
game-over pause of 1000 ms is the regeneration of the level and the reset of the
positions, which leave `lives`, `level` and `score` at 3, 1 and 0. -/
theorem last_life_game_over (s : Game) (g : Ghost) (hl : s.lives = 1)
    (hi : s.hero.invincible = false) (hov : overlap g.pos s.hero.pos = true)
    (hf : g.frightened = false) (he : g.eyesOnly = false) :
    (collideGhost s g).1 = gameOver (setTimeout
      { s with lives := 0, hero := { s.hero with invincible := true } } .lifeLostReset 1300) ∧
    (collideGhost s g).1.lives = 3 ∧ (collideGhost s g).1.level = 1 ∧
    (collideGhost s g).1.score = 0 ∧ (collideGhost s g).1.chain = 200 ∧
    (collideGhost s g).1.hero.invincible = true ∧
    (collideGhost s g).1.map = s.map ∧
    (collideGhost s g).1.pelletsRemaining = s.pelletsRemaining ∧
    (collideGhost s g).1.timers =
      s.timers ++ [⟨s.clock + 1300, .lifeLostReset⟩, ⟨s.clock + 1000, .gameOverRestart⟩] ∧
    (gameOverRestart (collideGhost s g).1).map = (generateMap 1).1 ∧
    (gameOverRestart (collideGhost s g).1).pelletsRemaining = (generateMap 1).2 ∧
    (gameOverRestart (collideGhost s g).1).hero.pos = heroStart ∧
    (gameOverRestart (collideGhost s g).1).lives = 3 ∧
    (gameOverRestart (collideGhost s g).1).level = 1 ∧
    (gameOverRestart (collideGhost s g).1).score = 0 := by
  rw [collideGhost_fatal s g hi hov hf he, loseLife_last s hl]
  refine ⟨rfl, rfl, rfl, rfl, rfl, rfl, rfl, rfl, ?_, rfl, rfl, rfl, rfl, rfl, rfl⟩
  simp [gameOver, setTimeout]

/-- Witness of C11 (amended): the state `lastLifeContact` and its red ghost. -/
theorem last_life_game_over_witness :
    lastLifeContact.lives = 1 ∧ lastLifeContact.hero.invincible = false ∧
    overlap redOnHero.pos lastLifeContact.hero.pos = true ∧
    redOnHero.frightened = false ∧ redOnHero.eyesOnly = false ∧
    (collideGhost lastLifeContact redOnHero).1.lives = 3 ∧
    (collideGhost lastLifeContact redOnHero).1.score = 0 :=
  ⟨by decide!, by decide!, by decide!, by decide!, by decide!,
   (last_life_game_over lastLifeContact redOnHero (by decide!) (by decide!) (by decide!)
     (by decide!) (by decide!)).2.1,
   (last_life_game_over lastLifeContact redOnHero (by decide!) (by decide!) (by decide!)
     (by decide!) (by decide!)).2.2.2.1⟩

/-! ## Scatter targets -/

/-- C12: in scatter mode `chooseTarget` of a non-retreating adversary gives
`scatterCorner` of its role, whatever the hero, the other globals and the
random draw are; the four corners are (200, 16), (16, 16), (200, 224) and
(16, 224), pairwise distinct, each within three tiles of a different corner of
the maze and so each in a different quadrant. -/
theorem scatter_targets :
    (∀ (s : Game) (g : Ghost) (k : Fin 4), s.mode = .scatter → g.eyesOnly = false →
      Ghost.chooseTarget s g k = scatterCorner g.type) ∧
    (∀ (s t : Game) (g : Ghost) (k j : Fin 4), s.mode = .scatter → t.mode = .scatter →
      g.eyesOnly = false → Ghost.chooseTarget s g k = Ghost.chooseTarget t g j) ∧
    scatterCorner .red = ⟨200, 16⟩ ∧ scatterCorner .pink = ⟨16, 16⟩ ∧
    scatterCorner .cyan = ⟨200, 224⟩ ∧ scatterCorner .orange = ⟨16, 224⟩ ∧
    (∀ a b : GhostType, scatterCorner a = scatterCorner b → a = b) ∧
    (mazeWidth - 3 * TILE ≤ (scatterCorner .red).x ∧ (scatterCorner .red).y ≤ 3 * TILE) ∧
    ((scatterCorner .pink).x ≤ 3 * TILE ∧ (scatterCorner .pink).y ≤ 3 * TILE) ∧
    (mazeWidth - 3 * TILE ≤ (scatterCorner .cyan).x ∧
      mazeHeight - 3 * TILE ≤ (scatterCorner .cyan).y) ∧
    ((scatterCorner .orange).x ≤ 3 * TILE ∧
      mazeHeight - 3 * TILE ≤ (scatterCorner .orange).y) ∧
    (3 * (TILE : ℚ) < mazeWidth / 2 ∧ 3 * (TILE : ℚ) < mazeHeight / 2) := by
  have h1 : ∀ (s : Game) (g : Ghost) (k : Fin 4), s.mode = .scatter → g.eyesOnly = false →
      Ghost.chooseTarget s g k = scatterCorner g.type := by
    intro s g k hm he
    unfold Ghost.chooseTarget
    simp [hm, he]
  refine ⟨h1, ?_, by decide!, by decide!, by decide!, by decide!, ?_,
    by decide!, by decide!, by decide!, by decide!, by decide!⟩
  · intro s t g k j hs ht he
    rw [h1 s g k hs he, h1 t g j ht he]
  · intro a b
    cases a <;> cases b <;> first | (intro _; rfl) | (intro h; revert h; decide!)

/-- Witness of C12: the pink ghost at the start state, which is in scatter mode. -/
theorem scatter_targets_witness :
    start.mode = .scatter ∧ pinkFrightened.eyesOnly = false ∧
    Ghost.chooseTarget start pinkFrightened 0 = scatterCorner pinkFrightened.type :=
  ⟨by decide!, by decide!, scatter_targets.1 start pinkFrightened 0 (by decide!) (by decide!)⟩

/-! ## Greedy direction selection -/

theorem bestDirStep_wall (m : Grid) (src dst : Vec) (acc : Dir × Option ℚ) (d : Dir)
    (h : openDir m src d = false) : bestDirStep m src dst acc d = acc := by
  unfold openDir dest at h
  unfold bestDirStep
  simp only [] at h ⊢
  rw [h]
  rfl

theorem bestDirStep_first (m : Grid) (src dst : Vec) (b : Dir) (d : Dir)
    (h : openDir m src d = true) :
    bestDirStep m src dst (b, Option.none) d = (d, some (manhattan (dest src d) dst)) := by
  unfold openDir dest at h
  unfold bestDirStep manhattan dest
  simp only [] at h ⊢
  rw [h]
  rfl

theorem bestDirStep_next (m : Grid) (src dst : Vec) (b : Dir) (x : ℚ) (d : Dir)
    (h : openDir m src d = true) :
    bestDirStep m src dst (b, some x) d =
      if manhattan (dest src d) dst < x then (d, some (manhattan (dest src d) dst))
      else (b, some x) := by
  unfold openDir dest at h
  unfold bestDirStep manhattan dest
  simp only [] at h ⊢
  rw [h]
  rfl

/-- The loop invariant of `bestDir` after the directions of `l`: nothing chosen
and every direction walled, or the first of the nearest open directions. -/
theorem bestDir_fold (m : Grid) (src dst : Vec) :
    ∀ (l2 l1 : List Dir) (acc : Dir × Option ℚ),
      ((acc = (Dir.none, Option.none) ∧ ∀ d ∈ l1, openDir m src d = false) ∨
       (∃ pre post, l1 = pre ++ acc.1 :: post ∧ openDir m src acc.1 = true ∧
          acc.2 = some (manhattan (dest src acc.1) dst) ∧
          (∀ d ∈ pre, openDir m src d = true →
            manhattan (dest src acc.1) dst < manhattan (dest src d) dst) ∧
          (∀ d ∈ post, openDir m src d = true →
            manhattan (dest src acc.1) dst ≤ manhattan (dest src d) dst))) →
      ((l2.foldl (bestDirStep m src dst) acc = (Dir.none, Option.none) ∧
          ∀ d ∈ l1 ++ l2, openDir m src d = false) ∨
       (∃ pre post, l1 ++ l2 = pre ++ (l2.foldl (bestDirStep m src dst) acc).1 :: post ∧
          openDir m src (l2.foldl (bestDirStep m src dst) acc).1 = true ∧
          (∀ d ∈ pre, openDir m src d = true →
            manhattan (dest src (l2.foldl (bestDirStep m src dst) acc).1) dst
              < manhattan (dest src d) dst) ∧
          (∀ d ∈ post, openDir m src d = true →
            manhattan (dest src (l2.foldl (bestDirStep m src dst) acc).1) dst
              ≤ manhattan (dest src d) dst)))
  | [], l1, acc, h => by
    rcases h with ⟨h1, h2⟩ | ⟨pre, post, h1, h2, _, h4, h5⟩
    · exact Or.inl ⟨h1, by simpa using h2⟩
    · exact Or.inr ⟨pre, post, by simpa using h1, h2, h4, h5⟩
  | d :: l2, l1, acc, h => by
    have key := bestDir_fold m src dst l2 (l1 ++ [d]) (bestDirStep m src dst acc d)
    rw [List.append_assoc, List.singleton_append] at key
    rw [List.foldl_cons]
    apply key
    cases hd : openDir m src d
    · rw [bestDirStep_wall m src dst acc d hd]
      rcases h with ⟨h1, h2⟩ | ⟨pre, post, h1, h2, h3, h4, h5⟩
      · refine Or.inl ⟨h1, fun x hx => ?_⟩
        rcases List.mem_append.1 hx with hx | hx
        · exact h2 x hx
        · rw [List.mem_singleton.1 hx]; exact hd
      · refine Or.inr ⟨pre, post ++ [d], by rw [h1]; simp, h2, h3, h4, fun x hx hox => ?_⟩
        rcases List.mem_append.1 hx with hx | hx
        · exact h5 x hx hox
        · rw [List.mem_singleton.1 hx, hd] at hox; cases hox
    · rcases h with ⟨h1, h2⟩ | ⟨pre, post, h1, h2, h3, h4, h5⟩
      · rw [h1, bestDirStep_first m src dst _ d hd]
        refine Or.inr ⟨l1, [], rfl, hd, rfl, fun x hx hox => ?_, fun x hx => ?_⟩
        · rw [h2 x hx] at hox; cases hox
        · cases hx
      · obtain ⟨b, x⟩ := acc
        simp only at h1 h2 h3 h4 h5
        cases x with
        | none => cases h3
        | some x =>
          simp only [Option.some.injEq] at h3
          rw [bestDirStep_next m src dst b x d hd]
          by_cases hlt : manhattan (dest src d) dst < x
          · rw [if_pos hlt]
            rw [h3] at hlt
            refine Or.inr ⟨l1, [], rfl, hd, rfl, fun y hy hoy => ?_, fun y hy => ?_⟩
            · rw [h1] at hy
              rcases List.mem_append.1 hy with hy | hy
              · exact lt_trans hlt (h4 y hy hoy)
              · rcases List.mem_cons.1 hy with hy | hy
                · rw [hy]; exact hlt
                · exact lt_of_lt_of_le hlt (h5 y hy hoy)
            · cases hy
          · rw [if_neg hlt]
            rw [h3] at hlt
            refine Or.inr ⟨pre, post ++ [d], by rw [h1]; simp, h2, by rw [h3],
              h4, fun y hy hoy => ?_⟩
            rcases List.mem_append.1 hy with hy | hy
            · exact h5 y hy hoy
            · rw [List.mem_singleton.1 hy]; exact not_lt.1 hlt

/-- C13: for every map, position and target, `bestDir(from, to)` is `none` if
and only if all four one-step destinations are walls; otherwise it is one of
up, left, down, right, its one-step destination is not a wall, its Manhattan
distance from that destination to the target is minimal among the directions
with a non-wall destination, and it is the first such minimiser in the order
up, left, down, right: every open direction before it is strictly farther. -/
theorem bestDir_greedy (m : Grid) (src dst : Vec) :
    (bestDir m src dst = .none ↔
      ∀ d ∈ [Dir.up, Dir.left, Dir.down, Dir.right], openDir m src d = false) ∧
    (bestDir m src dst ≠ .none →
      bestDir m src dst ∈ [Dir.up, Dir.left, Dir.down, Dir.right] ∧
      openDir m src (bestDir m src dst) = true ∧
      (∀ d ∈ [Dir.up, Dir.left, Dir.down, Dir.right], openDir m src d = true →
        manhattan (dest src (bestDir m src dst)) dst ≤ manhattan (dest src d) dst) ∧
      ∃ pre post, [Dir.up, Dir.left, Dir.down, Dir.right] = pre ++ bestDir m src dst :: post ∧
        ∀ d ∈ pre, openDir m src d = true →
          manhattan (dest src (bestDir m src dst)) dst < manhattan (dest src d) dst) := by
  have h := bestDir_fold m src dst [Dir.up, Dir.left, Dir.down, Dir.right] []
    (Dir.none, Option.none) (Or.inl ⟨rfl, fun d hd => by cases hd⟩)
  rw [List.nil_append] at h
  have hb : bestDir m src dst =
      ([Dir.up, Dir.left, Dir.down, Dir.right].foldl (bestDirStep m src dst)
        (Dir.none, Option.none)).1 := rfl
  rw [← hb] at h
  rcases h with ⟨h1, h2⟩ | ⟨pre, post, h1, h2, h3, h4⟩
  · have hn : bestDir m src dst = .none := by rw [hb, h1]
    exact ⟨⟨fun _ => h2, fun _ => hn⟩, fun hne => absurd hn hne⟩
  · have hmem : bestDir m src dst ∈ [Dir.up, Dir.left, Dir.down, Dir.right] := by
      rw [h1]; simp
    have hne : bestDir m src dst ≠ .none := by
      intro hn
      rw [hn] at hmem
      revert hmem
      decide
    refine ⟨⟨fun hn => absurd hn hne, fun hall => ?_⟩, fun _ => ⟨hmem, h2, ?_, pre, post, h1, h3⟩⟩
    · rw [hall _ hmem] at h2; cases h2
    · intro d hd hod
      rw [h1] at hd
      rcases List.mem_append.1 hd with hd | hd
      · exact le_of_lt (h3 d hd hod)
      · rcases List.mem_cons.1 hd with hd | hd
        · rw [hd]
        · exact h4 d hd hod

/-- Witness of C13: the hero start of level 1 towards the top left corner; the
tile above is open, so `bestDir` is not `none`. -/
theorem bestDir_greedy_witness :
    bestDir (generateMap 1).1 heroStart ⟨16, 16⟩ = .up ∧
    openDir (generateMap 1).1 heroStart (bestDir (generateMap 1).1 heroStart ⟨16, 16⟩) = true :=
  ⟨by decide!,
   ((bestDir_greedy (generateMap 1).1 heroStart ⟨16, 16⟩).2 (by decide!)).2.1⟩

/-! ## Turn test -/

theorem floor_tile_add (c : Int) (e : ℚ) (h0 : 0 ≤ e) (h1 : e < 8) :
    Rat.floor (((c : ℚ) * TILE + e) / TILE) = c := by
  show ⌊((c : ℚ) * TILE + e) / TILE⌋ = c
  rw [Int.floor_eq_iff]
  have h8 : ((TILE : Nat) : ℚ) = 8 := by norm_num [TILE]
  rw [h8]
  constructor
  · rw [le_div_iff₀ (by norm_num)]; linarith
  · rw [div_lt_iff₀ (by norm_num)]; linarith

theorem floor_tile_pred (c : Int) :
    Rat.floor (((c : ℚ) * TILE + -1) / TILE) = c - 1 := by
  have h := floor_tile_add (c - 1) 7 (by norm_num) (by norm_num)
  have h8 : ((TILE : Nat) : ℚ) = 8 := by norm_num [TILE]
  rw [← h]
  congr 1
  rw [h8]
  push_cast
  ring

theorem hitsWall_probe (m : Grid) (pos : Vec) (d : Dir) :
    hitsWall m ((jsRound (pos.x / TILE) : ℚ) * TILE + (dirVec d).x)
      ((jsRound (pos.y / TILE) : ℚ) * TILE + (dirVec d).y)
      = (cellAt m (probedCell pos d).1 (probedCell pos d).2 == some 1) := by
  have z := fun c : Int => floor_tile_add c 0 (by norm_num) (by norm_num)
  have o := fun c : Int => floor_tile_add c 1 (by norm_num) (by norm_num)
  have p := floor_tile_pred
  cases d <;> simp only [hitsWall, dirVec, probedCell, roundedTile, z, o, p]

/-- C14 (counterexample): on the map of level 1, `canTurn` is true for `up` at
(113, 185), a position aligned with the tile grid in neither axis; and it is
true for `right` at (120, 184), the corner of tile (23, 15), although the
adjacent cell (23, 16) in that direction is a wall. -/
theorem canTurn_without_alignment_or_open_neighbour :
    canTurn (generateMap 1).1 ⟨113, 185⟩ .up = true ∧
    (tile ⟨113, 185⟩ = (23, 14) ∧ (14 : ℚ) * TILE ≠ 113 ∧ (23 : ℚ) * TILE ≠ 185) ∧
    canTurn (generateMap 1).1 ⟨120, 184⟩ .right = true ∧
    (tile ⟨120, 184⟩ = (23, 15) ∧ (15 : ℚ) * TILE = 120 ∧ (23 : ℚ) * TILE = 184 ∧
      cellAt (generateMap 1).1 23 16 = some 1) := by
  decide!

/-- C14 (amended): `canTurn(pos, d)` is true if and only if `d` is one of
up/down/left/right and the cell that holds the point one pixel from the corner
of the rounded tile `(R, C) = (round(pos.y / TILE), round(pos.x / TILE))` in
direction `d` is not a wall: cell `(R - 1, C)` for up, `(R, C - 1)` for left and
the rounded tile `(R, C)` itself for down and right. The position is rounded,
not tested for alignment; for `d = none` the result is false for every
position. -/
theorem canTurn_iff (m : Grid) (pos : Vec) (d : Dir) :
    (canTurn m pos d = true ↔
      d ≠ .none ∧ cellAt m (probedCell pos d).1 (probedCell pos d).2 ≠ some 1) ∧
    canTurn m pos .none = false := by
  refine ⟨?_, rfl⟩
  by_cases hd : d = .none
  · rw [hd]
    simp [canTurn]
  · unfold canTurn
    simp only [hd, if_false, hitsWall_probe]
    simp [hd]

/-- Witness of C14 (amended): at the corner of tile (23, 15) of level 1 the turn
to the right is allowed, the probed cell being the tile (23, 15) itself. -/
theorem canTurn_iff_witness :
    probedCell ⟨120, 184⟩ .right = (23, 15) ∧
    canTurn (generateMap 1).1 ⟨120, 184⟩ .right = true :=
  ⟨by decide!, ((canTurn_iff (generateMap 1).1 ⟨120, 184⟩ .right).1).2 (by decide!)⟩

/-! ## Ambusher target -/

/-- C15 (counterexample): after one loop step to the right the hero is at
(112.8, 184); in chase mode the target of the free pink ghost is (145, 184),
four tiles ahead of the rounded position (113, 184), not (144.8, 184). -/
theorem ambusher_target_uses_rounded_position :
    heroStepped.mode = .chase ∧ heroStepped.hero.dir = .right ∧
    heroStepped.hero.pos = ⟨564 / 5, 184⟩ ∧
    Ghost.chooseTarget heroStepped pinkFree 0 = ⟨145, 184⟩ ∧
    Ghost.chooseTarget heroStepped pinkFree 0 ≠
      ⟨heroStepped.hero.pos.x + 4 * TILE, heroStepped.hero.pos.y⟩ := by
  decide!

theorem jsRound_intCast (a : Int) : jsRound (a : ℚ) = a := by
  show ⌊(a : ℚ) + 1 / 2⌋ = a
  rw [Int.floor_eq_iff]
  constructor <;> linarith

theorem chooseTarget_pink (s : Game) (g : Ghost) (k : Fin 4) (hm : s.mode = .chase)
    (ht : g.type = .pink) (hf : g.frightened = false) (he : g.eyesOnly = false) :
    Ghost.chooseTarget s g k = aheadOfHero s 4 := by
  unfold Ghost.chooseTarget
  simp [hm, ht, hf, he]

/-- C15 (amended): in chase mode, for a non-frightened, non-retreating pink
adversary, `chooseTarget` sets the target to the position of the hero rounded
to whole pixels (`heroCenter()`) plus 4 tiles along the facing direction of the
hero; exactly when the hero faces up the target is also shifted one tile
(`TILE` pixels) to the left; for facing `none` the target is the rounded
position. The rounded position is the position itself when its coordinates are
whole numbers. -/
theorem ambusher_target (s : Game) (g : Ghost) (k : Fin 4) (hm : s.mode = .chase)
    (ht : g.type = .pink) (hf : g.frightened = false) (he : g.eyesOnly = false) :
    Ghost.chooseTarget s g k =
      ⟨(jsRound s.hero.pos.x : ℚ) + (dirVec s.hero.dir).x * 4 * TILE
          + (if s.hero.dir = .up then -(TILE : ℚ) else 0),
       (jsRound s.hero.pos.y : ℚ) + (dirVec s.hero.dir).y * 4 * TILE⟩ ∧
    (s.hero.dir = .up → Ghost.chooseTarget s g k =
      ⟨(jsRound s.hero.pos.x : ℚ) - TILE, (jsRound s.hero.pos.y : ℚ) - 4 * TILE⟩) ∧
    (s.hero.dir = .down → Ghost.chooseTarget s g k =
      ⟨(jsRound s.hero.pos.x : ℚ), (jsRound s.hero.pos.y : ℚ) + 4 * TILE⟩) ∧
    (s.hero.dir = .left → Ghost.chooseTarget s g k =
      ⟨(jsRound s.hero.pos.x : ℚ) - 4 * TILE, (jsRound s.hero.pos.y : ℚ)⟩) ∧
    (s.hero.dir = .right → Ghost.chooseTarget s g k =
      ⟨(jsRound s.hero.pos.x : ℚ) + 4 * TILE, (jsRound s.hero.pos.y : ℚ)⟩) ∧
    (s.hero.dir = .none → Ghost.chooseTarget s g k =
      ⟨(jsRound s.hero.pos.x : ℚ), (jsRound s.hero.pos.y : ℚ)⟩) ∧
    (∀ a b : Int, s.hero.pos = ⟨a, b⟩ → heroCenter s = s.hero.pos) := by
  rw [chooseTarget_pink s g k hm ht hf he]
  refine ⟨?_, ?_, ?_, ?_, ?_, ?_, ?_⟩
  · unfold aheadOfHero heroCenter
    simp only []
    split_ifs <;> simp
  · intro hd
    simp only [aheadOfHero, heroCenter, hd, dirVec, if_true, Vec.mk.injEq]
    constructor <;> ring
  · intro hd
    simp only [aheadOfHero, heroCenter, hd, dirVec, Vec.mk.injEq]
    constructor <;> simp
  · intro hd
    simp only [aheadOfHero, heroCenter, hd, dirVec, Vec.mk.injEq]
    constructor
    · simp; ring
    · simp
  · intro hd
    simp only [aheadOfHero, heroCenter, hd, dirVec, Vec.mk.injEq]
    constructor <;> simp
  · intro hd
    simp only [aheadOfHero, heroCenter, hd, dirVec, Vec.mk.injEq]
    constructor <;> simp
  · intro a b hp
    unfold heroCenter
    rw [hp]
    simp only [jsRound_intCast]

/-- Witness of C15 (amended): the state `heroStepped` and the free pink ghost. -/
theorem ambusher_target_witness :
    heroStepped.mode = .chase ∧ pinkFree.type = .pink ∧ pinkFree.frightened = false ∧
    pinkFree.eyesOnly = false ∧ heroStepped.hero.dir = .right ∧
    Ghost.chooseTarget heroStepped pinkFree 0 =
      ⟨(jsRound heroStepped.hero.pos.x : ℚ) + 4 * TILE, (jsRound heroStepped.hero.pos.y : ℚ)⟩ :=
  ⟨by decide!, by decide!, by decide!, by decide!, by decide!,
   (ambusher_target heroStepped pinkFree 0 (by decide!) (by decide!) (by decide!)
     (by decide!)).2.2.2.2.1 (by decide!)⟩

/-! ## Power items and pellet count of a generated level -/

theorem generateMap_other (lvl : Int) (h : lvl ≠ 256) :
    generateMap lvl = placeDotsAndEnergizers loadBaseMaze := by
  unfold generateMap
  simp [h]

/-- C16 (defect): `ener` lists the four places (3, 2), (3, 25), (27, 2) and
(27, 25), but the map of level 1 holds three power-item cells, at (3, 2),
(27, 2) and (27, 25). Cell (3, 25) lies on row 3, one of the rows of the
corridor loop, and on the pillar of column 25 that is written after that loop:
it is a wall in the base maze, the guard of `placeDotsAndEnergizers` skips it
and it stays a wall. Its sibling (27, 25) on the same pillar is open, through
the gates loop. -/
theorem level_one_has_three_power_items :
    ener = [(3, 2), (3, 25), (27, 2), (27, 25)] ∧
    cellsOf 3 (generateMap 1).1 = [(3, 2), (27, 2), (27, 25)] ∧
    cellAt loadBaseMaze 3 25 = some 1 ∧ cellAt (generateMap 1).1 3 25 = some 1 ∧
    cellAt loadBaseMaze 27 25 = some 0 ∧ cellAt (generateMap 1).1 27 25 = some 3 := by
  decide!

/-- What `generateMap` places on each level: the power-item cells (kind 3) are
(3, 2), (27, 2) and (27, 25) on every level other than 256, and (3, 2) and
(27, 2) at level 256, where the split overwrites the right half; cell (3, 25)
is a power item on no level. -/
theorem power_items_of_level (lvl : Int) :
    cellsOf 3 (generateMap lvl).1 =
      (if lvl = 256 then [(3, 2), (27, 2)] else [(3, 2), (27, 2), (27, 25)]) ∧
    cellAt (generateMap lvl).1 3 25 ≠ some 3 := by
  by_cases h : lvl = 256
  · rw [h]; decide!
  · rw [generateMap_other lvl h, if_neg h]; decide!

/-- C17 (counterexample): at level 256 `generateMap` leaves
`pelletsRemaining = 514`, counted before the split, while the map then holds
419 cells of kind pellet or power item. -/
theorem level_256_count_mismatch :
    (generateMap 256).2 = 514 ∧
    countCells (fun v => v == 2 || v == 3) (generateMap 256).1 = 419 := by
  decide!

/-- C17 (amended): for every level other than 256, immediately after
`generateMap(lvl)` the counter `pelletsRemaining` equals the number of cells of
the map whose kind is pellet (2) or power item (3), which is 514. At level 256
the counter is 514 as well, but the split that follows the count leaves 419
such cells. -/
theorem pellet_count_at_level_start (lvl : Int) :
    (generateMap lvl).2 = 514 ∧
    (countCells (fun v => v == 2 || v == 3) (generateMap lvl).1 : Int) =
      (if lvl = 256 then 419 else (generateMap lvl).2) := by
  by_cases h : lvl = 256
  · rw [h]; decide!
  · rw [generateMap_other lvl h, if_neg h]; decide!

/-! ## Return to the house -/

theorem Ghost.update_eyesOnly (s : Game) (g : Ghost) (k : Fin 4) (dt : ℚ) :
    (Ghost.update s g k dt).eyesOnly = g.eyesOnly := by
  unfold Ghost.update Ghost.move
  simp only []
  split_ifs <;> rfl

theorem Ghost.update_target_eyes (s : Game) (g : Ghost) (k : Fin 4) (dt : ℚ)
    (he : g.eyesOnly = true) (hh : g.inHouse = false) :
    (Ghost.update s g k dt).target = some gate := by
  unfold Ghost.update Ghost.move Ghost.chooseTarget
  simp only [hh, he, if_true, Bool.false_eq_true, if_false]
  split_ifs <;> rfl

/-- C18 (counterexample): a retreating ghost standing on the house-gate
coordinate (104, 120) is still retreating and still not confined after its
update. -/
theorem eyes_at_gate_stay_eyes :
    eyesAtGate.pos = gate ∧ gate = ⟨13 * TILE, 15 * TILE⟩ ∧ eyesAtGate.eyesOnly = true ∧
    (Ghost.update start eyesAtGate 0 STEP).eyesOnly = true ∧
    (Ghost.update start eyesAtGate 0 STEP).inHouse = false := by
  decide!

/-- C18 (amended): the adversary update never changes `eyesOnly` or `inHouse`:
a retreating adversary, also one that has arrived at the house-gate coordinate,
stays retreating and not confined, with the gate as its target. It is
`nextLevel` that clears `eyesOnly` and sets `inHouse` for every adversary. -/
theorem retreating_stays_retreating (s : Game) (g : Ghost) (k : Fin 4) (dt : ℚ)
    (he : g.eyesOnly = true) (hh : g.inHouse = false) :
    (Ghost.update s g k dt).eyesOnly = true ∧ (Ghost.update s g k dt).inHouse = false ∧
    (Ghost.update s g k dt).target = some gate ∧
    ∀ x ∈ (nextLevel s).ghosts, x.eyesOnly = false ∧ x.inHouse = true := by
  refine ⟨by rw [Ghost.update_eyesOnly, he], by rw [Ghost.update_inHouse, hh], ?_, ?_⟩
  · exact Ghost.update_target_eyes s g k dt he hh
  · intro x hx
    rw [nextLevel_ghosts] at hx
    obtain ⟨y, _, rfl⟩ := List.mem_map.1 hx
    exact ⟨rfl, rfl⟩

/-- Witness of C18 (amended): the ghost `eyesAtGate` at the start state. -/
theorem retreating_stays_retreating_witness :
    eyesAtGate.eyesOnly = true ∧ eyesAtGate.inHouse = false ∧ eyesAtGate.pos = gate ∧
    ((Ghost.update start eyesAtGate 0 STEP).eyesOnly = true ∧
     (Ghost.update start eyesAtGate 0 STEP).inHouse = false ∧
     (Ghost.update start eyesAtGate 0 STEP).target = some gate ∧
     ∀ x ∈ (nextLevel start).ghosts, x.eyesOnly = false ∧ x.inHouse = true) :=
  ⟨by decide!, by decide!, by decide!,
   retreating_stays_retreating start eyesAtGate 0 STEP (by decide!) (by decide!)⟩

/-! ## The house of the base maze -/

/-- C19 (defect): in the maze built by `loadBaseMaze` every one of the 18 cells
of the ring around the house interior (rows 14 to 16, columns 12 to 15) is a
wall: the number of non-wall ring cells is 0, not 1. The cell (15, 13) that the
function opens as the gate tile lies inside the interior, which is open
already. -/
theorem house_ring_has_no_opening :
    houseRing.length = 18 ∧
    (houseRing.filter fun rc => cellAt loadBaseMaze rc.1 rc.2 != some 1) = [] ∧
    (∀ rc ∈ houseRing, cellAt loadBaseMaze rc.1 rc.2 = some 1) ∧
    (∀ rc ∈ houseInterior, cellAt loadBaseMaze rc.1 rc.2 = some 0) ∧
    ((15, 13) : Int × Int) ∈ houseInterior ∧
    (∀ rc ∈ houseRing, cellAt (generateMap 1).1 rc.1 rc.2 = some 1) := by
  decide!

/-! ## Schedule step -/

theorem updateMode_final (s : Game) (dt : ℚ) (h : s.schedIndex = 6) :
    updateMode s dt = some { s with modeTimer := s.modeTimer + dt } := by
  unfold updateMode
  simp only [h]
  split_ifs
  · rfl
  · rfl

theorem schedule_lookup (i : Nat) (hi : i < 6) :
    ∃ (t : ℚ) (cur : Mode) (nxt : Option ℚ × Mode),
      schedule[i]? = some (some t, cur) ∧ schedule[i + 1]? = some nxt := by
  interval_cases i <;> exact ⟨_, _, _, rfl, rfl⟩

theorem updateMode_step (s : Game) (dt : ℚ) (hm : s.mode ≠ .frightened)
    (cur nxt : Option ℚ × Mode) (hcur : schedule[s.schedIndex]? = some cur)
    (hnxt : schedule[s.schedIndex + 1]? = some nxt) :
    updateMode s dt = some
      (if reached (s.modeTimer + dt) cur.1 then
        { s with schedIndex := s.schedIndex + 1, mode := nxt.2, modeTimer := 0,
                 ghosts := s.ghosts.map fun g => { g with dir := opposite g.dir } }
       else { s with modeTimer := s.modeTimer + dt }) := by
  have hlt : s.schedIndex + 1 < schedule.length := (List.getElem?_eq_some.1 hnxt).1
  have hmin : min (s.schedIndex + 1) (schedule.length - 1) = s.schedIndex + 1 := by
    apply min_eq_left
    omega
  unfold updateMode
  simp only [hm, if_false, hcur, hmin, hnxt, reverseGhosts]
  split_ifs <;> rfl

theorem updateMode_schedIndex (s t : Game) (dt : ℚ) (h : updateMode s dt = some t)
    (hs : s.schedIndex ≤ 6) : t.schedIndex ≤ 6 := by
  unfold updateMode at h
  simp only [] at h
  split_ifs at h with h1
  · cases h; exact hs
  · split at h
    · cases h
    · split_ifs at h
      · split at h
        · cases h
        · cases h
          show min (s.schedIndex + 1) (schedule.length - 1) ≤ 6
          exact min_le_right _ _
      · cases h; exact hs

theorem Hero.eat_schedIndex (s : Game) : (Hero.eat s).schedIndex = s.schedIndex := by
  unfold Hero.eat
  simp only []
  split_ifs <;> (try split) <;> rfl

theorem onDotEaten_schedIndex (s : Game) : (onDotEaten s).schedIndex = s.schedIndex := by
  unfold onDotEaten spawnFruit
  simp only []
  split_ifs <;> rfl

theorem eatHook_schedIndex (s : Game) :
    (eatHook s).schedIndex = s.schedIndex ∨ (eatHook s).schedIndex = 0 := by
  unfold eatHook
  simp only []
  split_ifs
  · exact Or.inr rfl
  · exact Or.inl (by rw [onDotEaten_schedIndex, Hero.eat_schedIndex])
  · exact Or.inr rfl
  · exact Or.inl (Hero.eat_schedIndex s)

theorem updateGhosts_schedIndex (rnd : Nat → Fin 4) (dt : ℚ) (s : Game) :
    (updateGhosts rnd dt s).schedIndex = s.schedIndex := by
  unfold updateGhosts
  generalize List.range s.ghosts.length = l
  induction l generalizing s with
  | nil => rfl
  | cons i l ih =>
    rw [List.foldl_cons, ih]
    unfold updateGhostAt
    split <;> rfl

theorem applyElroy_schedIndex (s : Game) : (applyElroy s).schedIndex = s.schedIndex := by
  unfold applyElroy
  split <;> rfl

theorem updateFruit_schedIndex (s : Game) (dt : ℚ) :
    (updateFruit s dt).schedIndex = s.schedIndex := by
  unfold updateFruit
  simp only []
  split_ifs <;> rfl

theorem loseLife_schedIndex (s : Game) : (loseLife s).schedIndex = s.schedIndex := by
  unfold loseLife
  simp only []
  split_ifs <;> rfl

theorem collideList_schedIndex :
    ∀ (gs : List Ghost) (s : Game), (collideList s gs).1.schedIndex = s.schedIndex
  | [], _ => rfl
  | g :: gs, s => by
    have h1 : (collideGhost s g).1.schedIndex = s.schedIndex := by
      unfold collideGhost
      simp only []
      split_ifs <;> first | rfl | exact loseLife_schedIndex s
    simp only [collideList]
    rw [collideList_schedIndex gs _, h1]

theorem checkCollisions_schedIndex (s : Game) :
    (checkCollisions s).schedIndex = s.schedIndex :=
  collideList_schedIndex s.ghosts s

theorem runCallback_schedIndex (cb : Callback) (s t : Game) (h : runCallback cb s = some t) :
    t.schedIndex = s.schedIndex := by
  cases cb with
  | frightenedExpiry =>
    simp only [runCallback, frightenedExpiry] at h
    split at h
    · cases h
    · cases h; rfl
  | lifeLostReset => cases h; rfl
  | gameOverRestart => cases h; rfl

theorem foldlM_runCallback_schedIndex :
    ∀ (l : List Timer) (s t : Game), l.foldlM (fun g tm => runCallback tm.cb g) s = some t →
      t.schedIndex = s.schedIndex
  | [], s, t, h => by cases h; rfl
  | tm :: l, s, t, h => by
    rw [List.foldlM_cons] at h
    cases hr : runCallback tm.cb s with
    | none => rw [hr] at h; cases h
    | some u =>
      rw [hr] at h
      rw [foldlM_runCallback_schedIndex l u t h, runCallback_schedIndex tm.cb s u hr]

theorem step_schedIndex (s t : Game) (e : Event) (hs : s.schedIndex ≤ 6)
    (hst : step s e = some t) : t.schedIndex ≤ 6 := by
  cases e with
  | tick rnd =>
    simp only [step, tick] at hst
    cases hu : updateMode s STEP with
    | none => rw [hu] at hst; cases hst
    | some s1 =>
      rw [hu] at hst
      simp only [Option.map_some', Option.some.injEq] at hst
      have h1 := updateMode_schedIndex s s1 STEP hu hs
      rw [← hst, checkCollisions_schedIndex, updateFruit_schedIndex, applyElroy_schedIndex,
        updateGhosts_schedIndex]
      rcases eatHook_schedIndex (Hero.move s1 STEP) with h | h
      · have : (Hero.update s1 STEP).schedIndex = s1.schedIndex := h
        rw [this]; exact h1
      · have : (Hero.update s1 STEP).schedIndex = 0 := h
        rw [this]; exact Nat.zero_le _
  | key d =>
    simp only [step, Option.some.injEq] at hst
    rw [← hst]
    split_ifs <;> exact hs
  | wait ms =>
    simp only [step, advance] at hst
    have h2 := foldlM_runCallback_schedIndex _ _ _ hst
    rw [h2]; exact hs

theorem reachable_schedIndex (s : Game) (h : Reachable s) : s.schedIndex ≤ 6 := by
  induction h with
  | start => decide
  | step e _ hst ih => exact step_schedIndex _ _ e ih hst

/-- C20: for every state with mode other than frightened and `schedIndex` below
the final phase, `updateMode(dt)` adds `dt` to `modeTimer` and, if and only if
the new `modeTimer` is at least the duration `t` of the current phase, moves
`schedIndex` on by one, sets the mode to that of the new phase, resets
`modeTimer` to 0 and replaces the direction of every adversary by its opposite;
otherwise `schedIndex`, mode and all directions are unchanged. At the final
phase (index 6, unbounded duration) `updateMode` changes nothing but
`modeTimer`, whatever the mode; and `schedIndex` is at most 6 in every
reachable state. -/
theorem schedule_step :
    (∀ (s : Game) (dt : ℚ), s.mode ≠ .frightened → s.schedIndex < 6 →
      ∃ (t : ℚ) (cur : Mode) (nxt : Option ℚ × Mode),
        schedule[s.schedIndex]? = some (some t, cur) ∧
        schedule[s.schedIndex + 1]? = some nxt ∧
        updateMode s dt = some
          (if t ≤ s.modeTimer + dt then
            { s with schedIndex := s.schedIndex + 1, mode := nxt.2, modeTimer := 0,
                     ghosts := s.ghosts.map fun g => { g with dir := opposite g.dir } }
           else { s with modeTimer := s.modeTimer + dt })) ∧
    (∀ (s : Game) (dt : ℚ), s.schedIndex = 6 →
      schedule[s.schedIndex]? = some (Option.none, Mode.chase) ∧
      updateMode s dt = some { s with modeTimer := s.modeTimer + dt }) ∧
    (∀ s : Game, Reachable s → s.schedIndex ≤ 6) := by
  refine ⟨?_, ?_, reachable_schedIndex⟩
  · intro s dt hm hi
    obtain ⟨t, cur, nxt, h1, h2⟩ := schedule_lookup s.schedIndex hi
    refine ⟨t, cur, nxt, h1, h2, ?_⟩
    rw [updateMode_step s dt hm _ nxt h1 h2]
    simp only [reached, decide_eq_true_eq]
  · intro s dt h
    exact ⟨by rw [h]; rfl, updateMode_final s dt h⟩

/-- Witness of C20: the start state, in scatter mode at phase 0. -/
theorem schedule_step_witness :
    start.mode ≠ .frightened ∧ start.schedIndex < 6 ∧ Reachable start ∧
    (∃ (t : ℚ) (cur : Mode) (nxt : Option ℚ × Mode),
        schedule[start.schedIndex]? = some (some t, cur) ∧
        schedule[start.schedIndex + 1]? = some nxt ∧
        updateMode start STEP = some
          (if t ≤ start.modeTimer + STEP then
            { start with schedIndex := start.schedIndex + 1, mode := nxt.2, modeTimer := 0,
                         ghosts := start.ghosts.map fun g => { g with dir := opposite g.dir } }
           else { start with modeTimer := start.modeTimer + STEP })) ∧
    start.schedIndex ≤ 6 :=
  ⟨by decide!, by decide!, Reachable.start,
   schedule_step.1 start STEP (by decide!) (by decide!),
   schedule_step.2.2 start Reachable.start⟩

/-! ## Reachability of the pellets -/

theorem Path.mono {nb nb2 : Int × Int → List (Int × Int)} {m : Grid} {a c : Int × Int}
    (hsub : ∀ x y, y ∈ nb x → y ∈ nb2 x) (h : Path nb m a c) : Path nb2 m a c := by
  induction h with
  | start ho => exact Path.start ho
  | step _ hmem ho ih => exact Path.step ih (hsub _ _ hmem) ho

theorem neighbours4_sub_links (x y : Int × Int) (h : y ∈ neighbours4 x) : y ∈ links x := by
  unfold links
  exact List.mem_append_left _ (List.mem_append_left _ h)

/-- A set of cells that holds the start cell and, with a cell, its non-wall
`nb` cells, holds every cell a path leads to. -/
theorem Path.mem_of_closed {nb : Int × Int → List (Int × Int)} {m : Grid} {a c : Int × Int}
    (region : List (Int × Int)) (ha : a ∈ region)
    (hclosed : ∀ x ∈ region, ∀ y ∈ nb x, openCell m y = true → y ∈ region)
    (h : Path nb m a c) : c ∈ region := by
  induction h with
  | start _ => exact ha
  | step _ hmem ho ih => exact hclosed _ ih _ hmem ho

theorem grow_sound (nb : Int × Int → List (Int × Int)) (m : Grid) (a : Int × Int)
    (seen : List (Int × Int)) (h : ∀ c ∈ seen, Path nb m a c) :
    ∀ c ∈ grow nb m seen, Path nb m a c := by
  intro c hc
  unfold grow at hc
  rcases List.mem_append.1 hc with hc | hc
  · exact h c hc
  · rw [List.mem_dedup, List.mem_filter, List.mem_flatMap] at hc
    obtain ⟨⟨b, hb, hcb⟩, hopen⟩ := hc
    simp only [Bool.and_eq_true] at hopen
    exact Path.step (h b hb) hcb hopen.1

theorem flood_sound (nb : Int × Int → List (Int × Int)) (m : Grid) (a : Int × Int) :
    ∀ (n : Nat) (seen : List (Int × Int)), (∀ c ∈ seen, Path nb m a c) →
      ∀ c ∈ flood nb m n seen, Path nb m a c
  | 0, _, h => h
  | n + 1, seen, h => by
    unfold flood
    split_ifs
    · exact h
    · exact flood_sound nb m a n _ (grow_sound nb m a seen h)

theorem heroRegion_closed :
    ∀ x ∈ heroRegion, ∀ y ∈ links x, openCell (generateMap 1).1 y = true → y ∈ heroRegion := by
  decide!

/-- The cells that a path of non-wall cells leads to from the start tile of the
hero on the level-1 map are exactly the 24 cells of `heroRegion`, with or
without the tunnel wrap. -/
theorem path_iff_heroRegion (c : Int × Int) :
    (Path neighbours4 (generateMap 1).1 heroStartTile c ↔ c ∈ heroRegion) ∧
    (Path links (generateMap 1).1 heroStartTile c ↔ c ∈ heroRegion) := by
  have hstart : ∀ x ∈ [heroStartTile], Path neighbours4 (generateMap 1).1 heroStartTile x := by
    intro x hx
    rw [List.mem_singleton.1 hx]
    exact Path.start (by decide!)
  have h4 : flood neighbours4 (generateMap 1).1 (ROWS * COLS) [heroStartTile] = heroRegion := by
    decide!
  have hup : ∀ d, Path links (generateMap 1).1 heroStartTile d → d ∈ heroRegion :=
    fun d hd => Path.mem_of_closed heroRegion (by decide!) heroRegion_closed hd
  have hdown : ∀ d, d ∈ heroRegion → Path neighbours4 (generateMap 1).1 heroStartTile d := by
    intro d hd
    rw [← h4] at hd
    exact flood_sound neighbours4 _ _ _ _ hstart d hd
  exact ⟨⟨fun h => hup c (h.mono neighbours4_sub_links), hdown c⟩,
    ⟨hup c, fun h => (hdown c h).mono neighbours4_sub_links⟩⟩

theorem heroRegion_facts :
    tile heroStart = heroStartTile ∧ (generateMap 1).2 = 514 ∧
    levelOnePellets.length = 514 ∧
    (∀ c ∈ heroRegion, 18 ≤ c.1 ∧ c.1 ≤ 29 ∧ 14 ≤ c.2 ∧ c.2 ≤ 15) ∧
    heroRegion.length = 24 ∧
    (levelOnePellets.filter fun c => heroRegion.contains c).length = 24 ∧
    ((cellsOf 3 (generateMap 1).1).filter fun c => heroRegion.contains c) = [] ∧
    ((3, 2) : Int × Int) ∈ levelOnePellets ∧ ((3, 2) : Int × Int) ∉ heroRegion ∧
    ((23, 12) : Int × Int) ∈ levelOnePellets ∧ ((23, 12) : Int × Int) ∉ heroRegion := by
  decide!

theorem no_path_outside_heroRegion (c : Int × Int) (hc : c ∉ heroRegion) :
    ¬ Path neighbours4 (generateMap 1).1 heroStartTile c ∧
    ¬ Path links (generateMap 1).1 heroStartTile c :=
  ⟨fun h => hc ((path_iff_heroRegion c).1.1 h), fun h => hc ((path_iff_heroRegion c).2.1 h)⟩

/-- C21 (defect): on the level-1 map the start tile of the hero is (23, 14) and
the counter `pelletsRemaining` is 514, the number of pellet and power-item
cells. The cells that paths of 4-adjacent non-wall cells reach from the start
tile are the 24 cells of rows 18 to 29 and columns 14 to 15; they hold 24
pellets and no power item. The other 490 pellet and power-item cells, the power
item at (3, 2) and the pellet at (23, 12) among them, are not reachable, also
when the tunnel wrap counts as a link. -/
theorem most_pellets_unreachable :
    (tile heroStart = heroStartTile ∧ (generateMap 1).2 = 514 ∧
    levelOnePellets.length = 514 ∧
    (∀ c ∈ heroRegion, 18 ≤ c.1 ∧ c.1 ≤ 29 ∧ 14 ≤ c.2 ∧ c.2 ≤ 15) ∧
    heroRegion.length = 24 ∧
    (levelOnePellets.filter fun c => heroRegion.contains c).length = 24 ∧
    ((cellsOf 3 (generateMap 1).1).filter fun c => heroRegion.contains c) = [] ∧
    ((3, 2) : Int × Int) ∈ levelOnePellets ∧ ((3, 2) : Int × Int) ∉ heroRegion ∧
    ((23, 12) : Int × Int) ∈ levelOnePellets ∧ ((23, 12) : Int × Int) ∉ heroRegion) ∧
    (∀ c : Int × Int, Path neighbours4 (generateMap 1).1 heroStartTile c ↔ c ∈ heroRegion) ∧
    (∀ c : Int × Int, Path links (generateMap 1).1 heroStartTile c ↔ c ∈ heroRegion) ∧
    ¬ Path neighbours4 (generateMap 1).1 heroStartTile (3, 2) ∧
    ¬ Path neighbours4 (generateMap 1).1 heroStartTile (23, 12) ∧
    ¬ ∀ c ∈ levelOnePellets, Path neighbours4 (generateMap 1).1 heroStartTile c :=
  ⟨heroRegion_facts, fun c => (path_iff_heroRegion c).1, fun c => (path_iff_heroRegion c).2,
   (no_path_outside_heroRegion _ heroRegion_facts.2.2.2.2.2.2.2.2.1).1,
   (no_path_outside_heroRegion _ heroRegion_facts.2.2.2.2.2.2.2.2.2.2).1,
   fun hall => (no_path_outside_heroRegion _ heroRegion_facts.2.2.2.2.2.2.2.2.1).1
     (hall _ heroRegion_facts.2.2.2.2.2.2.2.1)⟩

end RedMan
